import Mathlib

/-!
Verification development for the IoTSensorSync repository.

The pipeline under study is the sensor data quality and analytics core:
`src/data_storage.py` (bounded, timestamp-ordered in-memory store),
`src/data_processor.py` (cleaning pipeline: missing-value repair,
invalid-value scrub, IQR outlier removal, Savitzky-Golay smoothing, sort),
and `src/analytics.py` (statistics, trends, anomalies, health, insights).

Modelling conventions:
* A pandas DataFrame (columns `timestamp, temperature, weight, moisture,
  pressure, sensor_id`) is modelled as a `List Row`; a missing (NaN) sensor
  value is `Option.none`; numeric values are `ℚ` (the cleaning pipeline and
  the store are exact rational computations, so every definition in those
  parts is computable and decidable).
* Timestamps are modelled as rational numbers of nanoseconds since the
  epoch (pandas datetimes are int64 nanoseconds); `analyze_trends` divides
  by 10^9 to get seconds, exactly as the source does.
* Analytics that involve a standard deviation (a square root) are modelled
  over `ℝ` with `Real.sqrt`.
-/

namespace IoT

/-- The four recognized sensor fields (`sensor_columns` in the source). -/
inductive Sensor
  | temperature
  | weight
  | moisture
  | pressure
deriving DecidableEq, Repr

/-- `sensor_columns = ['temperature', 'weight', 'moisture', 'pressure']`,
in source iteration order. -/
def sensorList : List Sensor := [.temperature, .weight, .moisture, .pressure]

/-- `DataProcessor.sensor_ranges`: sensor → (min, max) valid range. -/
def sensorRange : Sensor → ℚ × ℚ
  | .temperature => (-50, 100)
  | .weight => (0, 1000)
  | .moisture => (0, 100)
  | .pressure => (80000, 120000)

/-- One reading / one DataFrame row.  A `none` sensor field models NaN. -/
structure Row where
  timestamp : ℚ
  temperature : Option ℚ
  weight : Option ℚ
  moisture : Option ℚ
  pressure : Option ℚ
  sensor_id : String
deriving DecidableEq, Repr

/-- Column projection of a row. -/
def getCol : Sensor → Row → Option ℚ
  | .temperature, r => r.temperature
  | .weight, r => r.weight
  | .moisture, r => r.moisture
  | .pressure, r => r.pressure

/-- One sensor column of a snapshot, as pandas sees it (`data[column]`). -/
def snapCol (s : Sensor) (d : List Row) : List (Option ℚ) := d.map (getCol s)

/-- `Series.dropna()` of a column. -/
def dropna (c : List (Option ℚ)) : List ℚ := c.filterMap id

/-- A sensor value is inside its sensor's valid range. -/
def inRange (s : Sensor) (v : ℚ) : Prop :=
  (sensorRange s).1 ≤ v ∧ v ≤ (sensorRange s).2

instance (s : Sensor) (v : ℚ) : Decidable (inRange s v) := by
  unfold inRange; infer_instance

/-- Row comparison used by `sort_values('timestamp')`. -/
def rowLe (a b : Row) : Prop := a.timestamp ≤ b.timestamp

instance : DecidableRel rowLe := fun a b => by unfold rowLe; infer_instance

instance : IsTotal Row rowLe := ⟨fun a b => le_total a.timestamp b.timestamp⟩

instance : IsTrans Row rowLe := ⟨fun _ _ _ h h' => le_trans h h'⟩

/-- `data.sort_values('timestamp').reset_index(drop=True)` (a stable sort by
the timestamp key). -/
def sortSnap (d : List Row) : List Row := List.insertionSort rowLe d

/-! ### Column-level operations (pandas Series operations on one column) -/

/-- Helper for `ffill`: carries the last seen non-missing value. -/
def ffillGo : Option ℚ → List (Option ℚ) → List (Option ℚ)
  | _, [] => []
  | last, none :: t => last :: ffillGo last t
  | _, some v :: t => some v :: ffillGo (some v) t

/-- `Series.fillna(method='ffill')`: propagate the nearest earlier
non-missing value forward into missing slots. -/
def ffill (c : List (Option ℚ)) : List (Option ℚ) := ffillGo none c

/-- `Series.fillna(method='bfill')`: propagate the nearest later
non-missing value backward. -/
def bfill (c : List (Option ℚ)) : List (Option ℚ) := (ffill c.reverse).reverse

/-- Index and value of the last non-missing entry of `c` (indices offset by
`j`); `none` if every entry is missing. -/
def lastSomeAux : List (Option ℚ) → ℕ → Option (ℕ × ℚ)
  | [], _ => none
  | o :: t, j =>
    match lastSomeAux t (j + 1) with
    | some r => some r
    | none => o.map (fun v => (j, v))

/-- Nearest earlier non-missing entry strictly before index `k`. -/
def findPrev (c : List (Option ℚ)) (k : ℕ) : Option (ℕ × ℚ) :=
  lastSomeAux (c.take k) 0

/-- Index and value of the first non-missing entry (indices offset by `j`). -/
def firstSomeAux : List (Option ℚ) → ℕ → Option (ℕ × ℚ)
  | [], _ => none
  | some v :: _, j => some (j, v)
  | none :: t, j => firstSomeAux t (j + 1)

/-- Nearest later non-missing entry strictly after index `k`. -/
def findNext (c : List (Option ℚ)) (k : ℕ) : Option (ℕ × ℚ) :=
  firstSomeAux (c.drop (k + 1)) (k + 1)

/-- `Series.interpolate(method='linear')`: a missing entry with a valid
neighbour on both sides becomes the linear interpolation (by position) of
those neighbours; a missing entry with only an earlier valid neighbour is
clamped to it; leading missing entries stay missing (pandas interpolates in
the forward direction only). -/
def interpolateLinear (c : List (Option ℚ)) : List (Option ℚ) :=
  (List.range c.length).map (fun k =>
    match c.getD k none with
    | some v => some v
    | none =>
      match findPrev c k, findNext c k with
      | some (i, a), some (j, b) =>
          some (a + (((k : ℚ) - (i : ℚ)) * (b - a)) / ((j : ℚ) - (i : ℚ)))
      | some (_, a), none => some a
      | none, _ => none)

/-- One column of `DataProcessor._fill_missing_values`: forward fill, then
backward fill, then linear interpolation, then — if the whole column is
still missing — fill with the midpoint of the sensor's valid range. -/
def fillColumn (midpoint : ℚ) (c : List (Option ℚ)) : List (Option ℚ) :=
  let c3 := interpolateLinear (bfill (ffill c))
  if c3.any (fun o => o.isNone) then c3.map (fun o => some (o.getD midpoint)) else c3

/-- Sorted copy of a rational list (pandas sorts before taking quantiles). -/
def sortQ (l : List ℚ) : List ℚ := List.insertionSort (· ≤ ·) l

/-- `Series.quantile(p)` with pandas' default linear interpolation: the
value at fractional position `p * (n - 1)` of the sorted non-missing
values. -/
def quantileQ (p : ℚ) (l : List ℚ) : ℚ :=
  let s := sortQ l
  let n := s.length
  if n = 0 then 0
  else
    let pos : ℚ := p * ((n : ℚ) - 1)
    let i : ℕ := (Int.floor pos).toNat
    let lo := s.getD i 0
    lo + (pos - (i : ℚ)) * (s.getD (i + 1) lo - lo)

/-- Rebuild a snapshot from its rows' non-column fields and four replacement
sensor columns (the inverse of the four column projections). -/
def rebuild : List Row → List (Option ℚ) → List (Option ℚ) → List (Option ℚ) →
    List (Option ℚ) → List Row
  | r :: rs, a :: as_, b :: bs, c :: cs, p :: ps =>
      { r with temperature := a, weight := b, moisture := c, pressure := p } ::
        rebuild rs as_ bs cs ps
  | _, _, _, _, _ => []

/-- Apply an independent per-column transformation to each of the four
sensor columns (the `for column in sensor_columns` loops of the source). -/
def mapCols (f : Sensor → List (Option ℚ) → List (Option ℚ)) (d : List Row) :
    List Row :=
  rebuild d (f .temperature (snapCol .temperature d))
    (f .weight (snapCol .weight d))
    (f .moisture (snapCol .moisture d))
    (f .pressure (snapCol .pressure d))

/-- The midpoint of a sensor's valid range (the all-missing fallback fill
of `_fill_missing_values`). -/
def midpointOf (s : Sensor) : ℚ := ((sensorRange s).1 + (sensorRange s).2) / 2

/-- `DataProcessor._fill_missing_values`. -/
def fill_missing_values (d : List Row) : List Row :=
  mapCols (fun s c => fillColumn (midpointOf s) c) d

/-- One cell of the marking pass of `_remove_invalid_values`: a value
outside the sensor's valid range becomes missing (NaN). -/
def scrubVal (s : Sensor) (o : Option ℚ) : Option ℚ :=
  o.bind (fun v =>
    if v < (sensorRange s).1 ∨ (sensorRange s).2 < v then none else some v)

/-- Marking pass of `DataProcessor._remove_invalid_values`. -/
def markInvalid (d : List Row) : List Row :=
  mapCols (fun s c => c.map (scrubVal s)) d

/-- `DataProcessor._remove_invalid_values`: mark out-of-range values as
missing, then repair with `_fill_missing_values`. -/
def remove_invalid_values (d : List Row) : List Row :=
  fill_missing_values (markInvalid d)

/-- One column of the marking pass of `DataProcessor._remove_outliers`:
if the column has more than 4 non-missing values, values outside
`[Q1 - 1.5*IQR, Q3 + 1.5*IQR]` become missing. -/
def outlierMark (c : List (Option ℚ)) : List (Option ℚ) :=
  let vals := dropna c
  if 4 < vals.length then
    let q1 := quantileQ (1/4) vals
    let q3 := quantileQ (3/4) vals
    let iqr := q3 - q1
    let lb := q1 - (3/2) * iqr
    let ub := q3 + (3/2) * iqr
    c.map (fun o => o.bind (fun v => if v < lb ∨ ub < v then none else some v))
  else c

/-- Marking pass of `DataProcessor._remove_outliers`. -/
def markOutliers (d : List Row) : List Row :=
  mapCols (fun _ c => outlierMark c) d

/-- `DataProcessor._remove_outliers`: IQR-mark outliers, then repair with
`_fill_missing_values`. -/
def remove_outliers (d : List Row) : List Row :=
  fill_missing_values (markOutliers d)

/-- Least-squares quadratic fit to the five points
`(0, y0), …, (4, y4)`, evaluated at `x` (exact normal-equations solve). -/
def quadFit5 (y0 y1 y2 y3 y4 x : ℚ) : ℚ :=
  let t0 := y0 + y1 + y2 + y3 + y4
  let t1 := y1 + 2 * y2 + 3 * y3 + 4 * y4
  let t2 := y1 + 4 * y2 + 9 * y3 + 16 * y4
  let c := (2 * t0 - 4 * t1 + t2) / 14
  let b := (t1 - 2 * t0) / 10 - 4 * c
  let a := t0 / 5 - 2 * b - 6 * c
  a + b * x + c * x ^ 2

/-- `scipy.signal.savgol_filter(window_length=5, polyorder=2)` with the
default `mode='interp'`: interior points are the centred quadratic fit of
their 5-wide window; the first and last two points come from the quadratic
fit of the first and last five values. -/
def savgol5 (vs : List ℚ) : List ℚ :=
  let n := vs.length
  let w : ℕ → ℚ := fun i => vs.getD i 0
  (List.range n).map (fun (i : ℕ) =>
    if i < 2 then
      quadFit5 (w 0) (w 1) (w 2) (w 3) (w 4) (i : ℚ)
    else if n - 3 < i then
      quadFit5 (w (n - 5)) (w (n - 4)) (w (n - 3)) (w (n - 2)) (w (n - 1))
        ((i : ℚ) - ((n : ℚ) - 5))
    else
      quadFit5 (w (i - 2)) (w (i - 1)) (w i) (w (i + 1)) (w (i + 2)) 2)

/-- All entries of a column, provided none is missing. -/
def allSome (c : List (Option ℚ)) : Option (List ℚ) :=
  if c.all (fun o => o.isSome) then some (c.filterMap id) else none

/-- `DataProcessor._apply_smoothing`: Savitzky-Golay smoothing (window
`min(5, len)` forced odd — always 5 on the `len > 5` inputs `clean_data`
passes in) of each sensor column.  Inside `clean_data` every column is
fully non-missing when this stage runs (the scrub stage repaired every
gap); a column that still contains a missing value is left unchanged,
mirroring the source's keep-original-on-failure fallback. -/
def apply_smoothing (d : List Row) : List Row :=
  if d.length < 5 then d
  else
    mapCols (fun _ c =>
      match allSome c with
      | some vs => (savgol5 vs).map some
      | none => c) d

/-- `DataProcessor.clean_data(data, remove_outliers, fill_missing,
smooth_data)`: the five-stage cleaning pipeline. -/
def clean_data (data : List Row) (remove_outliers_opt fill_missing_opt
    smooth_data_opt : Bool) : List Row :=
  if data = [] then data
  else
    let c1 := if fill_missing_opt then fill_missing_values data else data
    let c2 := remove_invalid_values c1
    let c3 := if remove_outliers_opt then remove_outliers c2 else c2
    let c4 := if smooth_data_opt ∧ 5 < c3.length then apply_smoothing c3 else c3
    sortSnap c4

/-! ### Time-series store (`src/data_storage.py`) -/

/-- An inbound reading before timestamp normalization.  `timestamp = none`
models a value `pd.to_datetime` cannot parse (the normalization failure
path of `DataStorage.add_reading`). -/
structure RawReading where
  timestamp : Option ℚ
  temperature : Option ℚ
  weight : Option ℚ
  moisture : Option ℚ
  pressure : Option ℚ
  sensor_id : String
deriving DecidableEq, Repr

/-- `DataStorage._max_records = 10000`. -/
def maxRecords : ℕ := 10000

/-- The stored row obtained from a reading whose timestamp normalized
to `t`. -/
def toRow (r : RawReading) (t : ℚ) : Row :=
  { timestamp := t, temperature := r.temperature, weight := r.weight,
    moisture := r.moisture, pressure := r.pressure, sensor_id := r.sensor_id }

/-- `DataStorage.add_reading`: normalize the timestamp (on failure return
`False` with the store unchanged — the exception is raised before any
assignment to `self._data`), append, re-sort by timestamp, and trim to the
newest `maxRecords` rows (`DataFrame.tail`).  Returns the success flag and
the new store contents. -/
def add_reading (st : List Row) (r : RawReading) : Bool × List Row :=
  match r.timestamp with
  | none => (false, st)
  | some t =>
    let st1 := sortSnap (st ++ [toRow r t])
    let st2 := if maxRecords < st1.length then st1.drop (st1.length - maxRecords)
               else st1
    (true, st2)

/-- The store contents after appending a whole sequence of readings to a
freshly created (empty) store. -/
def applyReadings (rs : List RawReading) : List Row :=
  rs.foldl (fun st r => (add_reading st r).2) []

/-- One CSV cell (pandas prints NaN as an empty cell; numeric and datetime
formatting is abstracted by `toString`). -/
def csvField : Option ℚ → String
  | some v => toString v
  | none => ""

/-- One CSV data row of `DataFrame.to_csv(index=False)`. -/
def rowCsv (r : Row) : String :=
  toString r.timestamp ++ "," ++ csvField r.temperature ++ "," ++
    csvField r.weight ++ "," ++ csvField r.moisture ++ "," ++
    csvField r.pressure ++ "," ++ r.sensor_id

/-- `DataFrame.to_csv(index=False)`: header line then one line per row. -/
def to_csv (d : List Row) : String :=
  "timestamp,temperature,weight,moisture,pressure,sensor_id\n" ++
    String.intercalate "\n" (d.map rowCsv) ++ "\n"

/-- One JSON field (pandas renders NaN as null). -/
def jsonField : Option ℚ → String
  | some v => toString v
  | none => "null"

/-- One record of `DataFrame.to_json(orient='records')`. -/
def rowJson (r : Row) : String :=
  "\x7b\"timestamp\":" ++ toString r.timestamp ++
    ",\"temperature\":" ++ jsonField r.temperature ++
    ",\"weight\":" ++ jsonField r.weight ++
    ",\"moisture\":" ++ jsonField r.moisture ++
    ",\"pressure\":" ++ jsonField r.pressure ++
    ",\"sensor_id\":\"" ++ r.sensor_id ++ "\"\x7d"

/-- `DataFrame.to_json(orient='records')`. -/
def to_json (d : List Row) : String :=
  "[" ++ String.intercalate "," (d.map rowJson) ++ "]"

/-- Python `str.lower()` (the logical content of `String.toLower`, stated
over the character list so that it evaluates). -/
def strLower (s : String) : String := String.mk (s.data.map Char.toLower)

/-- `DataStorage.get_data_for_export(format_type)`: empty store exports as
the empty string (before any format check); `'csv'` and `'json'` (case
insensitive) serialize; anything else raises `ValueError` (modelled as
`Except.error` carrying the message). -/
def get_data_for_export (st : List Row) (format_type : String) :
    Except String String :=
  if st = [] then .ok ""
  else if strLower format_type = "csv" then .ok (to_csv st)
  else if strLower format_type = "json" then .ok (to_json st)
  else .error ("Unsupported format: " ++ format_type)

/-! ### Analytics engine (`src/analytics.py`)

Statistics that involve a standard deviation are computed over `ℝ` with
`Real.sqrt`.  Where pandas/NumPy would produce NaN (empty mean, sample
standard deviation of a single value, division by a zero standard
deviation), the Lean convention `x / 0 = 0` applies; each such spot is
noted at its definition, and no claim proved below depends on the value
produced there. -/

/-- A rational column cast to real values. -/
def qListToR (l : List ℚ) : List ℝ := l.map (fun (v : ℚ) => (v : ℝ))

/-- Mean of a list of reals (`Series.mean()`; empty mean is NaN in pandas,
`0/0 = 0` here). -/
noncomputable def meanR (l : List ℝ) : ℝ := l.sum / l.length

/-- Sum of squared deviations from the mean. -/
noncomputable def sqDevSum (l : List ℝ) : ℝ :=
  (l.map (fun x => (x - meanR l) ^ 2)).sum

/-- Sample variance, `Series.var()` (ddof = 1; a singleton gives NaN in
pandas, `0/0 = 0` here). -/
noncomputable def sampleVar (l : List ℝ) : ℝ := sqDevSum l / ((l.length : ℝ) - 1)

/-- Sample standard deviation, `Series.std()` (ddof = 1). -/
noncomputable def stdR (l : List ℝ) : ℝ := Real.sqrt (sampleVar l)

/-- Population standard deviation (ddof = 0), as used by
`scipy.stats.zscore`. -/
noncomputable def popStd (l : List ℝ) : ℝ := Real.sqrt (sqDevSum l / l.length)

/-- A column's non-missing values paired with their original row positions
(`values = data[column].dropna()` keeps the original index labels). -/
def colWithIndex (s : Sensor) (d : List Row) : List (ℕ × ℚ) :=
  (snapCol s d).enum.filterMap (fun p => p.2.map (fun v => (p.1, v)))

open scoped Classical in
/-- The `(index, value)` pairs flagged by `Analytics.detect_anomalies` for
one column: z-score test (`|z| > 3`, population std; a zero std gives NaN
z-scores in NumPy and flags nothing, and the `x / 0 = 0` convention flags
nothing as well), IQR test (1.5 multiplier), or nothing for an unknown
method name. -/
noncomputable def anomalyPairs (method : String) (pairs : List (ℕ × ℚ)) :
    List (ℕ × ℚ) :=
  if method = "zscore" then
    let vals : List ℝ := qListToR (pairs.map (fun p => p.2))
    let μ := meanR vals
    let σ := popStd vals
    pairs.filter (fun p => decide (3 < |((p.2 : ℝ)) - μ| / σ))
  else if method = "iqr" then
    let vals : List ℚ := pairs.map (fun p => p.2)
    let q1 := quantileQ (1/4) vals
    let q3 := quantileQ (3/4) vals
    let iqr := q3 - q1
    pairs.filter (fun p =>
      decide (p.2 < q1 - (3/2) * iqr ∨ q3 + (3/2) * iqr < p.2))
  else []

/-- Per-sensor result record of `Analytics.detect_anomalies`. -/
structure AnomalyEntry where
  count : ℕ
  percentage : ℝ
  indices : List ℕ
  values : List ℚ

/-- The per-sensor record `detect_anomalies` builds for one column: the
flagged count, percentage of the column's non-missing values, and the
flagged positions and values. -/
noncomputable def anomalyRecord (method : String) (pairs : List (ℕ × ℚ)) :
    AnomalyEntry :=
  let anom := anomalyPairs method pairs
  { count := anom.length,
    percentage := ((anom.length : ℝ) / (pairs.length : ℝ)) * 100,
    indices := anom.map (fun p => p.1),
    values := anom.map (fun p => p.2) }

open scoped Classical in
/-- The entry construction of `detect_anomalies` for one column that has
reached the `anomalies[column] = ...` statement.  For a supported method
`anomaly_indices` is a pandas `Index` and `anomaly_indices.tolist()`
succeeds; for an unknown method the `else` branch assigned a plain Python
list, and `anomaly_indices.tolist()` raises `AttributeError` — modelled as
the error value. -/
noncomputable def anomalyEntryExc (method : String) (pairs : List (ℕ × ℚ)) :
    Except String AnomalyEntry :=
  if method = "zscore" ∨ method = "iqr" then .ok (anomalyRecord method pairs)
  else .error "AttributeError: list object has no attribute tolist"

/-- `Analytics.detect_anomalies(data, method)`: per sensor column with at
least 3 non-missing values, the per-column record; columns with fewer than
3 non-missing values are skipped (`continue`).  The loop is a monadic fold
because the entry construction raises `AttributeError` for an unknown
method name (see `anomalyEntryExc`), aborting the whole call. -/
noncomputable def detect_anomalies (data : List Row) (method : String) :
    Except String (List (Sensor × AnomalyEntry)) :=
  if data = [] then .ok []
  else
    sensorList.foldlM (fun acc s =>
      let pairs := colWithIndex s data
      if pairs.length < 3 then .ok acc
      else (anomalyEntryExc method pairs).map (fun e => acc ++ [(s, e)])) []

/-- The list of entries `detect_anomalies` produces on every input where
it completes without raising (every supported method, and every snapshot
whose columns all have fewer than 3 non-missing values). -/
noncomputable def anomaly_entries (data : List Row) (method : String) :
    List (Sensor × AnomalyEntry) :=
  if data = [] then []
  else
    sensorList.filterMap (fun s =>
      let pairs := colWithIndex s data
      if pairs.length < 3 then none
      else some (s, anomalyRecord method pairs))

/-- Trend direction labels of `Analytics.analyze_trends`. -/
inductive Direction
  | Stable
  | Increasing
  | Decreasing
deriving DecidableEq, Repr

/-- Trend confidence tiers of `Analytics.analyze_trends`. -/
inductive Confidence
  | High
  | Medium
  | Low
deriving DecidableEq, Repr

/-- Per-sensor result record of `Analytics.analyze_trends`.  The p-value
field of `scipy.stats.linregress` (a Student-t tail probability, outside
this model) is omitted; no claim mentions it. -/
structure TrendEntry where
  slope : ℝ
  intercept : ℝ
  r_squared : ℝ
  std_error : ℝ
  direction : Direction
  confidence : Confidence

open scoped Classical in
/-- `scipy.stats.linregress` on `(x, y)` pairs followed by the direction
and confidence classification of `Analytics.analyze_trends`:
slope `Sxy/Sxx`, intercept `ȳ − slope·x̄`, `r = Sxy/√(Sxx·Syy)`,
`std_err = √((1 − r²)·(Syy/Sxx)/(n − 2))`; direction is `Stable` when
`|slope| < std_err`, else `Increasing`/`Decreasing` by the sign of the
slope; confidence is `High` when `r² > 0.7`, `Medium` when `r² > 0.3`,
else `Low`. -/
noncomputable def linregressEntry (pairs : List (ℝ × ℝ)) : TrendEntry :=
  let n : ℝ := pairs.length
  let xs := pairs.map (fun p => p.1)
  let ys := pairs.map (fun p => p.2)
  let xbar := meanR xs
  let ybar := meanR ys
  let sxx := (xs.map (fun x => (x - xbar) ^ 2)).sum
  let syy := (ys.map (fun y => (y - ybar) ^ 2)).sum
  let sxy := (pairs.map (fun p => (p.1 - xbar) * (p.2 - ybar))).sum
  let slope := sxy / sxx
  let r := sxy / Real.sqrt (sxx * syy)
  let r2 := r ^ 2
  let se := Real.sqrt ((1 - r2) * (syy / sxx) / (n - 2))
  { slope := slope,
    intercept := ybar - slope * xbar,
    r_squared := r2,
    std_error := se,
    direction := if |slope| < se then .Stable
                 else if 0 < slope then .Increasing
                 else .Decreasing,
    confidence := if 7/10 < r2 then .High
                  else if 3/10 < r2 then .Medium
                  else .Low }

/-- `Analytics.analyze_trends(data)`: requires at least 3 rows; sorts by
timestamp, converts timestamps to seconds (nanoseconds divided by `10^9`),
and regresses each sensor column with at least 3 non-missing values
against time. -/
noncomputable def analyze_trends (data : List Row) : List (Sensor × TrendEntry) :=
  if data = [] ∨ data.length < 3 then []
  else
    let ds := sortSnap data
    sensorList.filterMap (fun s =>
      let pairs : List (ℝ × ℝ) := ds.filterMap (fun r =>
        (getCol s r).map (fun (v : ℚ) => (((r.timestamp : ℝ)) / 10 ^ 9, (v : ℝ))))
      if pairs.length < 3 then none
      else some (s, linregressEntry pairs))

/-- Health status tiers of `Analytics.calculate_sensor_health`. -/
inductive HealthStatus
  | Excellent
  | Good
  | Fair
  | Poor
deriving DecidableEq, Repr

/-- Per-sensor result record of `Analytics.calculate_sensor_health`
(fields rounded to 2 decimals as in the source). -/
structure HealthEntry where
  availability_percent : ℝ
  stability_cv : ℝ
  recent_stability_cv : ℝ
  health_score : ℝ
  status : HealthStatus

/-- Python `round(x, 2)` (bankers' rounding differs from `round` only at
exact half-cent ties, which no claim exercises). -/
noncomputable def round2 (x : ℝ) : ℝ := (round (x * 100) : ℤ) / 100

open scoped Classical in
/-- Coefficient of variation with the guard of
`Analytics.calculate_sensor_health`: `(std/mean)·100` when the mean is
nonzero, else `100`. -/
noncomputable def cvGuarded (vals : List ℝ) : ℝ :=
  if meanR vals ≠ 0 then (stdR vals / meanR vals) * 100 else 100

open scoped Classical in
/-- One entry of `Analytics.calculate_sensor_health`: availability is the
non-missing fraction; stability CVs use the guard above; `recent` is the
last `max(1, int(len·0.1))` rows (`int(n·0.1) = n / 10` exactly for every
snapshot size this system stores); the score is
`min(100, 0.4·availability + 0.3·(100 − min(cv,100)) + 0.3·(100 − min(recentCv,100)))`,
and the status tiers are `≥90 / ≥70 / ≥50` on the unrounded score. -/
noncomputable def healthEntry (c : List (Option ℚ)) : HealthEntry :=
  let n := c.length
  let availability : ℝ := (((dropna c).length : ℝ) / (n : ℝ)) * 100
  let cv := cvGuarded (qListToR (dropna c))
  let recentCount := max 1 (n / 10)
  let recent := c.drop (n - recentCount)
  let recentCv := cvGuarded (qListToR (dropna recent))
  let score := min 100 (availability * (4/10) + (100 - min cv 100) * (3/10) +
    (100 - min recentCv 100) * (3/10))
  { availability_percent := round2 availability,
    stability_cv := round2 cv,
    recent_stability_cv := round2 recentCv,
    health_score := round2 score,
    status := if 90 ≤ score then .Excellent
              else if 70 ≤ score then .Good
              else if 50 ≤ score then .Fair
              else .Poor }

/-- `Analytics.calculate_sensor_health(data)`. -/
noncomputable def calculate_sensor_health (data : List Row) :
    List (Sensor × HealthEntry) :=
  if data = [] then []
  else sensorList.map (fun s => (s, healthEntry (snapCol s data)))

/-- Correlation strength tiers of `Analytics.analyze_correlations`. -/
inductive Strength
  | Strong
  | Moderate
  | Weak
  | VeryWeak
deriving DecidableEq, Repr

/-- Correlation sign labels of `Analytics.analyze_correlations`. -/
inductive CorrDirection
  | Positive
  | Negative
deriving DecidableEq, Repr

/-- Per-pair result record of `Analytics.analyze_correlations`. -/
structure CorrEntry where
  coefficient : ℝ
  strength : Strength
  direction : CorrDirection
  significant : Bool

/-- Python `round(x, 3)`. -/
noncomputable def round3 (x : ℝ) : ℝ := (round (x * 1000) : ℤ) / 1000

/-- Pearson correlation of two columns over the rows where both are
non-missing (pandas `DataFrame.corr()` uses pairwise-complete
observations; a degenerate column gives NaN in pandas, `x / 0 = 0`
here). -/
noncomputable def pearsonR (d : List Row) (s1 s2 : Sensor) : ℝ :=
  let pairs : List (ℝ × ℝ) := d.filterMap (fun r =>
    match getCol s1 r, getCol s2 r with
    | some a, some b => some ((a : ℝ), (b : ℝ))
    | _, _ => none)
  let xs := pairs.map (fun p => p.1)
  let ys := pairs.map (fun p => p.2)
  let xbar := meanR xs
  let ybar := meanR ys
  let sxy := (pairs.map (fun p => (p.1 - xbar) * (p.2 - ybar))).sum
  sxy / Real.sqrt ((xs.map (fun x => (x - xbar) ^ 2)).sum *
    (ys.map (fun y => (y - ybar) ^ 2)).sum)

/-- The unordered sensor pairs `i < j` in iteration order. -/
def sensorPairs : List (Sensor × Sensor) :=
  [(.temperature, .weight), (.temperature, .moisture), (.temperature, .pressure),
   (.weight, .moisture), (.weight, .pressure), (.moisture, .pressure)]

/-- Result record of `Analytics.analyze_correlations`. -/
structure CorrResult where
  pairwise_correlations : List (Sensor × Sensor × CorrEntry)
  correlation_matrix : Sensor → Sensor → ℝ

open scoped Classical in
/-- One pair entry of `Analytics.analyze_correlations`: strength tiers
`|r| ≥ 0.7 / 0.4 / 0.2`, direction by the sign (`> 0` positive), and the
significance flag `|r| ≥ 0.2`. -/
noncomputable def corrEntry (r : ℝ) : CorrEntry :=
  { coefficient := round3 r,
    strength := if 7/10 ≤ |r| then .Strong
                else if 4/10 ≤ |r| then .Moderate
                else if 1/5 ≤ |r| then .Weak
                else .VeryWeak,
    direction := if 0 < r then .Positive else .Negative,
    significant := decide (1/5 ≤ |r|) }

/-- `Analytics.analyze_correlations(data)`: `none` models the empty dict
returned for an empty snapshot (or fewer than 2 sensor columns, which
cannot happen in this model where all four columns exist). -/
noncomputable def analyze_correlations (data : List Row) : Option CorrResult :=
  if data = [] then none
  else if sensorList.length < 2 then none
  else some
    { pairwise_correlations :=
        sensorPairs.map (fun p => (p.1, p.2, corrEntry (pearsonR data p.1 p.2))),
      correlation_matrix := fun s1 s2 => round3 (pearsonR data s1 s2) }

/-- Per-column block of `DataFrame.describe()`: count of non-missing
values, mean, std, min, quartiles, max. -/
structure DescribeEntry where
  count : ℕ
  mean : ℝ
  std : ℝ
  min : ℝ
  q25 : ℝ
  q50 : ℝ
  q75 : ℝ
  max : ℝ

/-- Minimum of a rational list (0 for an empty column, where pandas gives
NaN). -/
def minQ : List ℚ → ℚ
  | [] => 0
  | h :: t => t.foldl min h

/-- Maximum of a rational list (0 for an empty column). -/
def maxQ : List ℚ → ℚ
  | [] => 0
  | h :: t => t.foldl max h

/-- `DataFrame.describe()` for one column. -/
noncomputable def describeCol (vals : List ℚ) : DescribeEntry :=
  let valsR : List ℝ := qListToR vals
  { count := vals.length,
    mean := meanR valsR,
    std := stdR valsR,
    min := (minQ vals : ℝ),
    q25 := (quantileQ (1/4) vals : ℝ),
    q50 := (quantileQ (1/2) vals : ℝ),
    q75 := (quantileQ (3/4) vals : ℝ),
    max := (maxQ vals : ℝ) }

/-- `Series.skew()`: the bias-corrected Fisher-Pearson coefficient
`√(n(n−1))/(n−2) · (m3/m2^{3/2})` with `mk` the central moments divided
by `n`. -/
noncomputable def skewness (vals : List ℝ) : ℝ :=
  let n : ℝ := vals.length
  let μ := meanR vals
  let m2 := (vals.map (fun x => (x - μ) ^ 2)).sum / n
  let m3 := (vals.map (fun x => (x - μ) ^ 3)).sum / n
  Real.sqrt (n * (n - 1)) / (n - 2) * (m3 / m2 ^ ((3 : ℝ) / 2))

/-- `Series.kurtosis()`: bias-corrected excess kurtosis
`((n+1)·(m4/m2² − 3) + 6)·(n−1)/((n−2)(n−3))`. -/
noncomputable def kurtosis (vals : List ℝ) : ℝ :=
  let n : ℝ := vals.length
  let μ := meanR vals
  let m2 := (vals.map (fun x => (x - μ) ^ 2)).sum / n
  let m4 := (vals.map (fun x => (x - μ) ^ 4)).sum / n
  ((n + 1) * (m4 / m2 ^ 2 - 3) + 6) * (n - 1) / ((n - 2) * (n - 3))

/-- Result record of `Analytics.calculate_statistics` (per-sensor values
indexed by the sensor). -/
structure StatsResult where
  descriptive : Sensor → DescribeEntry
  skewness : Sensor → ℝ
  kurtosis : Sensor → ℝ
  correlation : Sensor → Sensor → ℝ
  variance : Sensor → ℝ
  coefficient_of_variation : Sensor → ℝ

/-- `Analytics.calculate_statistics(data)`: `none` models the empty dict
for an empty snapshot.  The coefficient of variation here has no zero-mean
guard (`(std/mean)·100`; a zero mean gives inf/NaN in pandas, `x / 0 = 0`
here). -/
noncomputable def calculate_statistics (data : List Row) : Option StatsResult :=
  if data = [] then none
  else some
    { descriptive := fun s => describeCol (dropna (snapCol s data)),
      skewness := fun s => skewness (qListToR (dropna (snapCol s data))),
      kurtosis := fun s => kurtosis (qListToR (dropna (snapCol s data))),
      correlation := fun s1 s2 => pearsonR data s1 s2,
      variance := fun s => sampleVar (qListToR (dropna (snapCol s data))),
      coefficient_of_variation := fun s =>
        let valsR := qListToR (dropna (snapCol s data))
        (stdR valsR / meanR valsR) * 100 }

/-- Tagged insight records produced by `Analytics.generate_insights` (the
source builds display strings; the tag and the numbers interpolated into
each string are modelled, the prose is not). -/
inductive Insight
  | noData
  | trendHigh (s : Sensor) (dir : Direction) (r2 : ℝ)
  | correlation (s1 s2 : Sensor) (strength : Strength) (dir : CorrDirection)
      (coef : ℝ)
  | healthWarning (s : Sensor) (status : HealthStatus) (score : ℝ)
  | healthExcellent (s : Sensor) (score : ℝ)
  | highVariability (s : Sensor) (cv : ℝ)
  | sufficientData
  | moreDataNeeded
  | noPattern

open scoped Classical in
/-- `Analytics.generate_insights(data)`: the early return
`["No data available for analysis"]` for an empty snapshot, then the rule
cascade — high-confidence trends, significant strong/moderate
correlations, poor/fair health warnings and excellent-health
confirmations, high-variability (CV > 50) warnings, and the closing data
volume message (> 100 records); the final no-pattern fallback is kept from
the source although the volume rule always fires. -/
noncomputable def generate_insights (data : List Row) : List Insight :=
  if data = [] then [.noData]
  else
    let trendIns := (analyze_trends data).filterMap (fun p =>
      if p.2.confidence = .High then some (.trendHigh p.1 p.2.direction p.2.r_squared)
      else none)
    let corrIns := match analyze_correlations data with
      | none => []
      | some c => c.pairwise_correlations.filterMap (fun p =>
          if p.2.2.significant = true ∧
              (p.2.2.strength = .Strong ∨ p.2.2.strength = .Moderate) then
            some (.correlation p.1 p.2.1 p.2.2.strength p.2.2.direction
              p.2.2.coefficient)
          else none)
    let healthIns := (calculate_sensor_health data).filterMap (fun p =>
      if p.2.status = .Poor ∨ p.2.status = .Fair then
        some (.healthWarning p.1 p.2.status p.2.health_score)
      else if p.2.status = .Excellent then
        some (.healthExcellent p.1 p.2.health_score)
      else none)
    let varIns := match calculate_statistics data with
      | none => []
      | some st => sensorList.filterMap (fun s =>
          if 50 < st.coefficient_of_variation s then
            some (.highVariability s (st.coefficient_of_variation s))
          else none)
    let volumeIns := if 100 < data.length then [Insight.sufficientData]
                     else [Insight.moreDataNeeded]
    let insights := trendIns ++ corrIns ++ healthIns ++ varIns ++ volumeIns
    if insights = [] then [.noPattern] else insights

/-- Result record of `Analytics.get_performance_metrics` (the source
formats these numbers into strings; the numbers are modelled). -/
structure PerfMetrics where
  data_collection_period : ℝ
  average_collection_rate : ℝ
  data_completeness : ℝ
  anomaly_rate : ℝ
  overall_system_health : ℝ

/-- `Analytics.get_performance_metrics(data)`: collection span (seconds)
and rate (readings/hour), completeness percentage, anomaly rate over the
default z-score detection, and the mean health score. -/
noncomputable def get_performance_metrics (data : List Row) : Option PerfMetrics :=
  if data = [] then none
  else
    let ts := data.map (fun r => r.timestamp)
    let spanSeconds : ℝ := ((maxQ ts - minQ ts : ℚ) : ℝ) / 10 ^ 9
    let n : ℝ := data.length
    let actual : ℝ := (sensorList.map (fun s => ((dropna (snapCol s data)).length : ℝ))).sum
    -- the default method "zscore" is supported, so this call never raises
    -- (a raise here would propagate in Python; the error arm is unreachable)
    let anomalies := match detect_anomalies data "zscore" with
      | .ok l => l
      | .error _ => []
    let totalAnomalies : ℝ := (anomalies.map (fun p => (p.2.count : ℝ))).sum
    let healthScores := (calculate_sensor_health data).map (fun p => p.2.health_score)
    some
      { data_collection_period := spanSeconds,
        average_collection_rate := n / max 1 (spanSeconds / 3600),
        data_completeness := actual / (n * (sensorList.length : ℝ)) * 100,
        anomaly_rate := totalAnomalies / actual * 100,
        overall_system_health := meanR healthScores }

/-! ### Concrete snapshots used in the theorems below -/

/-- A reading with only a temperature value. -/
def tRow (t : ℚ) (temp : Option ℚ) : Row :=
  { timestamp := t, temperature := temp, weight := none, moisture := none,
    pressure := none, sensor_id := "s1" }

/-- A fully populated row. -/
def fRow (t temp w m p : ℚ) : Row :=
  { timestamp := t, temperature := some temp, weight := some w,
    moisture := some m, pressure := some p, sensor_id := "s1" }

/-- Five in-range temperatures whose IQR outlier bounds move after the
first repair: sorted values `[0,0,0,20,90]` give `Q3 = 20`,
`IQR = 20`, upper bound `50`, so only `90` is repaired (to `0` by forward
fill); the repaired column `[0,0,20,0,0]` has `Q3 = 0`, upper bound `0`,
so a second pass also repairs the `20`. -/
def snapA : List Row :=
  [tRow 0 (some 0), tRow 1 (some 90), tRow 2 (some 20), tRow 3 (some 0),
   tRow 4 (some 0)]

/-- `clean_data snapA true true false` (first pass). -/
def snapA1 : List Row :=
  [fRow 0 0 500 50 100000, fRow 1 0 500 50 100000, fRow 2 20 500 50 100000,
   fRow 3 0 500 50 100000, fRow 4 0 500 50 100000]

/-- `clean_data snapA1 true true false` (second pass). -/
def snapA2 : List Row :=
  [fRow 0 0 500 50 100000, fRow 1 0 500 50 100000, fRow 2 0 500 50 100000,
   fRow 3 0 500 50 100000, fRow 4 0 500 50 100000]

/-- Six in-range temperatures forming a step; Savitzky-Golay smoothing of
the trailing edge overshoots the temperature range. -/
def snapB : List Row :=
  [tRow 0 (some 0), tRow 1 (some 0), tRow 2 (some 0), tRow 3 (some 0),
   tRow 4 (some 100), tRow 5 (some 100)]

/-- `clean_data snapB false false true` (first pass): the last smoothed
temperature is `800/7 ≈ 114.3 > 100`. -/
def snapB1 : List Row :=
  [fRow 0 (60/7) 500 50 100000, fRow 1 (-100/7) 500 50 100000,
   fRow 2 (-60/7) 500 50 100000, fRow 3 (180/7) 500 50 100000,
   fRow 4 (440/7) 500 50 100000, fRow 5 (800/7) 500 50 100000]

/-- `clean_data snapB1 false false true` (second pass): the scrub repairs
`800/7` to `440/7` and the filter then produces different values. -/
def snapB2 : List Row :=
  [fRow 0 (312/49) 500 50 100000, fRow 1 (-520/49) 500 50 100000,
   fRow 2 (-312/49) 500 50 100000, fRow 3 (1320/49) 500 50 100000,
   fRow 4 (2396/49) 500 50 100000, fRow 5 (3412/49) 500 50 100000]

/-- The spec's end-to-end example: temperatures `20, 1000 (invalid), 22`
at consecutive timestamps. -/
def snapC : List Row :=
  [tRow 0 (some 20), tRow 1 (some 1000), tRow 2 (some 22)]

/-- The cleaned temperatures of `snapC`: the invalid `1000` is repaired to
the forward-filled `20` by the scrub stage (under every option
combination). -/
def snapC1 : List (Option ℚ) := [some 20, some 20, some 22]

/-- A perfectly linear series `value = 2·t + 5`: temperatures `5, 7, 9` at
timestamps `0, 1, 2` seconds (`0, 10^9, 2·10^9` nanoseconds). -/
def trendSnap : List Row :=
  [tRow 0 (some 5), tRow 1000000000 (some 7), tRow 2000000000 (some 9)]

/-- The trend entry `analyze_trends` computes for `trendSnap`. -/
noncomputable def trendSnapEntry : TrendEntry :=
  { slope := 2, intercept := 5, r_squared := 1, std_error := 0,
    direction := .Increasing, confidence := .High }

/-- Three readings with every sensor constantly zero: full availability
and zero variance, but a zero mean. -/
def healthSnap0 : List Row :=
  [fRow 0 0 0 0 0, fRow 1 0 0 0 0, fRow 2 0 0 0 0]

/-- The health entry `calculate_sensor_health` computes for every column
of `healthSnap0`: the `mean != 0` guard makes both CVs `100`, so the
score is `40` and the status poor. -/
noncomputable def healthEntry0 : HealthEntry :=
  { availability_percent := 100, stability_cv := 100,
    recent_stability_cv := 100, health_score := 40, status := .Poor }

/-- Three readings with a constant nonzero temperature (witness data for
the zero-variance, nonzero-mean health property). -/
def healthSnap5 : List Row :=
  [tRow 0 (some 5), tRow 1 (some 5), tRow 2 (some 5)]

/-- Three temperatures and only two weights: the weight column is dropped
by `detect_anomalies`, the temperature column gets an entry. -/
def anomSnap : List Row :=
  [{ timestamp := 0, temperature := some 1, weight := some 4, moisture := none,
     pressure := none, sensor_id := "s1" },
   { timestamp := 1, temperature := some 2, weight := some 4, moisture := none,
     pressure := none, sensor_id := "s1" },
   { timestamp := 2, temperature := some 3, weight := none, moisture := none,
     pressure := none, sensor_id := "s1" }]

/-- An unparsable reading: `pd.to_datetime` fails on its timestamp. -/
def badReading : RawReading :=
  { timestamp := none, temperature := some 21, weight := some 300,
    moisture := some 40, pressure := some 100000, sensor_id := "s9" }

/-- Two parseable readings, deliberately out of timestamp order. -/
def okReading1 : RawReading :=
  { timestamp := some 5, temperature := some 21, weight := none,
    moisture := none, pressure := none, sensor_id := "s1" }

/-- See `okReading1`. -/
def okReading2 : RawReading :=
  { timestamp := some 3, temperature := some 22, weight := none,
    moisture := none, pressure := none, sensor_id := "s1" }

/-- A third parseable reading appended in the store witness. -/
def okReading3 : RawReading :=
  { timestamp := some 4, temperature := some 23, weight := none,
    moisture := none, pressure := none, sensor_id := "s2" }

/-- Every row of a snapshot has every sensor field present and inside its
sensor's valid range (the state every snapshot is in after the
invalid-value scrub). -/
def SnapClean (d : List Row) : Prop :=
  ∀ r ∈ d, ∀ s : Sensor, ∃ v, getCol s r = some v ∧ inRange s v

/-! ## Lemmas about the column operations -/

theorem ffillGo_length (acc : Option ℚ) (c : List (Option ℚ)) :
    (ffillGo acc c).length = c.length := by
  induction c generalizing acc with
  | nil => rfl
  | cons o t ih => cases o <;> simp [ffillGo, ih]

theorem ffill_length (c : List (Option ℚ)) : (ffill c).length = c.length :=
  ffillGo_length none c

theorem bfill_length (c : List (Option ℚ)) : (bfill c).length = c.length := by
  simp [bfill, ffill_length]

theorem interpolateLinear_length (c : List (Option ℚ)) :
    (interpolateLinear c).length = c.length := by
  simp [interpolateLinear]

theorem fillColumn_length (m : ℚ) (c : List (Option ℚ)) :
    (fillColumn m c).length = c.length := by
  by_cases h : (interpolateLinear (bfill (ffill c))).any (fun o => o.isNone) = true <;>
    simp [fillColumn, h, interpolateLinear_length, bfill_length, ffill_length]

theorem snapCol_length (s : Sensor) (d : List Row) :
    (snapCol s d).length = d.length := by
  simp [snapCol]

theorem rebuild_length (d : List Row) (as_ bs cs ps : List (Option ℚ))
    (ha : as_.length = d.length) (hb : bs.length = d.length)
    (hc : cs.length = d.length) (hp : ps.length = d.length) :
    (rebuild d as_ bs cs ps).length = d.length := by
  induction d generalizing as_ bs cs ps with
  | nil => rfl
  | cons r rs ih =>
    cases as_ with
    | nil => simp at ha
    | cons a as_ =>
      cases bs with
      | nil => simp at hb
      | cons b bs =>
        cases cs with
        | nil => simp at hc
        | cons c cs =>
          cases ps with
          | nil => simp at hp
          | cons p ps =>
            simp only [rebuild, List.length_cons] at *
            exact congrArg Nat.succ
              (ih _ _ _ _ (by omega) (by omega) (by omega) (by omega))

theorem snapCol_rebuild (d : List Row) (as_ bs cs ps : List (Option ℚ))
    (ha : as_.length = d.length) (hb : bs.length = d.length)
    (hc : cs.length = d.length) (hp : ps.length = d.length) :
    snapCol .temperature (rebuild d as_ bs cs ps) = as_ ∧
      snapCol .weight (rebuild d as_ bs cs ps) = bs ∧
      snapCol .moisture (rebuild d as_ bs cs ps) = cs ∧
      snapCol .pressure (rebuild d as_ bs cs ps) = ps := by
  induction d generalizing as_ bs cs ps with
  | nil =>
    simp only [List.length_nil, List.length_eq_zero] at ha hb hc hp
    subst ha hb hc hp
    exact ⟨rfl, rfl, rfl, rfl⟩
  | cons r rs ih =>
    cases as_ with
    | nil => simp at ha
    | cons a as_ =>
      cases bs with
      | nil => simp at hb
      | cons b bs =>
        cases cs with
        | nil => simp at hc
        | cons c cs =>
          cases ps with
          | nil => simp at hp
          | cons p ps =>
            simp only [List.length_cons, Nat.succ.injEq] at ha hb hc hp
            obtain ⟨h1, h2, h3, h4⟩ := ih as_ bs cs ps ha hb hc hp
            simp only [rebuild, snapCol, List.map_cons, getCol] at *
            exact ⟨by rw [h1], by rw [h2], by rw [h3], by rw [h4]⟩

theorem timestamps_rebuild (d : List Row) (as_ bs cs ps : List (Option ℚ))
    (ha : as_.length = d.length) (hb : bs.length = d.length)
    (hc : cs.length = d.length) (hp : ps.length = d.length) :
    (rebuild d as_ bs cs ps).map (fun r => r.timestamp) =
      d.map (fun r => r.timestamp) := by
  induction d generalizing as_ bs cs ps with
  | nil => rfl
  | cons r rs ih =>
    cases as_ with
    | nil => simp at ha
    | cons a as_ =>
      cases bs with
      | nil => simp at hb
      | cons b bs =>
        cases cs with
        | nil => simp at hc
        | cons c cs =>
          cases ps with
          | nil => simp at hp
          | cons p ps =>
            simp only [List.length_cons, Nat.succ.injEq] at ha hb hc hp
            simp only [rebuild, List.map_cons]
            rw [ih as_ bs cs ps ha hb hc hp]

theorem rebuild_self (d : List Row) :
    rebuild d (snapCol .temperature d) (snapCol .weight d)
      (snapCol .moisture d) (snapCol .pressure d) = d := by
  induction d with
  | nil => rfl
  | cons r rs ih => simp only [snapCol, List.map_cons, rebuild, getCol] at *; rw [ih]

theorem mapCols_length (f : Sensor → List (Option ℚ) → List (Option ℚ))
    (hf : ∀ s c, (f s c).length = c.length) (d : List Row) :
    (mapCols f d).length = d.length := by
  unfold mapCols
  exact rebuild_length d _ _ _ _ (by rw [hf, snapCol_length])
    (by rw [hf, snapCol_length]) (by rw [hf, snapCol_length])
    (by rw [hf, snapCol_length])

theorem snapCol_mapCols (f : Sensor → List (Option ℚ) → List (Option ℚ))
    (hf : ∀ s c, (f s c).length = c.length) (d : List Row) (s : Sensor) :
    snapCol s (mapCols f d) = f s (snapCol s d) := by
  have h := snapCol_rebuild d (f .temperature (snapCol .temperature d))
    (f .weight (snapCol .weight d)) (f .moisture (snapCol .moisture d))
    (f .pressure (snapCol .pressure d))
    (by rw [hf, snapCol_length]) (by rw [hf, snapCol_length])
    (by rw [hf, snapCol_length]) (by rw [hf, snapCol_length])
  cases s with
  | temperature => exact h.1
  | weight => exact h.2.1
  | moisture => exact h.2.2.1
  | pressure => exact h.2.2.2

theorem timestamps_mapCols (f : Sensor → List (Option ℚ) → List (Option ℚ))
    (hf : ∀ s c, (f s c).length = c.length) (d : List Row) :
    (mapCols f d).map (fun r => r.timestamp) = d.map (fun r => r.timestamp) := by
  unfold mapCols
  exact timestamps_rebuild d _ _ _ _ (by rw [hf, snapCol_length])
    (by rw [hf, snapCol_length]) (by rw [hf, snapCol_length])
    (by rw [hf, snapCol_length])

theorem mapCols_id (f : Sensor → List (Option ℚ) → List (Option ℚ))
    (d : List Row) (hf : ∀ s, f s (snapCol s d) = snapCol s d) :
    mapCols f d = d := by
  unfold mapCols
  rw [hf .temperature, hf .weight, hf .moisture, hf .pressure, rebuild_self]

theorem mem_ffillGo {v : ℚ} {acc : Option ℚ} {c : List (Option ℚ)}
    (h : some v ∈ ffillGo acc c) : acc = some v ∨ some v ∈ c := by
  induction c generalizing acc with
  | nil => simp [ffillGo] at h
  | cons o t ih =>
    cases o with
    | none =>
      simp only [ffillGo, List.mem_cons] at h
      rcases h with h | h
      · exact Or.inl h.symm
      · rcases ih h with h' | h'
        · exact Or.inl h'
        · exact Or.inr (List.mem_cons_of_mem _ h')
    | some w =>
      simp only [ffillGo, List.mem_cons] at h
      rcases h with h | h
      · exact Or.inr (by rw [h]; exact List.mem_cons_self _ _)
      · rcases ih h with h' | h'
        · exact Or.inr (by rw [← h']; exact List.mem_cons_self _ _)
        · exact Or.inr (List.mem_cons_of_mem _ h')

theorem mem_ffill {v : ℚ} {c : List (Option ℚ)} (h : some v ∈ ffill c) :
    some v ∈ c := by
  rcases mem_ffillGo h with h' | h'
  · exact absurd h' (by simp)
  · exact h'

theorem mem_bfill {v : ℚ} {c : List (Option ℚ)} (h : some v ∈ bfill c) :
    some v ∈ c := by
  unfold bfill at h
  rw [List.mem_reverse] at h
  have := mem_ffill h
  rwa [List.mem_reverse] at this

theorem lastSomeAux_spec {l : List (Option ℚ)} {j i : ℕ} {a : ℚ}
    (h : lastSomeAux l j = some (i, a)) :
    j ≤ i ∧ i < j + l.length ∧ some a ∈ l := by
  induction l generalizing j with
  | nil => simp [lastSomeAux] at h
  | cons o t ih =>
    simp only [lastSomeAux] at h
    rcases hrec : lastSomeAux t (j + 1) with _ | r
    · rw [hrec] at h
      cases o with
      | none => simp at h
      | some w =>
        simp only [Option.map_some] at h
        obtain ⟨h1, h2⟩ := Prod.mk.injEq .. ▸ Option.some.injEq .. ▸ h
        injection h with h'
        injection h' with h1 h2
        subst h1 h2
        exact ⟨le_refl _, by simp, by simp⟩
    · rw [hrec] at h
      injection h with h'
      subst h'
      obtain ⟨h1, h2, h3⟩ := ih hrec
      exact ⟨by omega, by simp only [List.length_cons]; omega,
        List.mem_cons_of_mem _ h3⟩

theorem findPrev_spec {c : List (Option ℚ)} {k i : ℕ} {a : ℚ}
    (h : findPrev c k = some (i, a)) : i < k ∧ some a ∈ c := by
  obtain ⟨_, h2, h3⟩ := lastSomeAux_spec h
  have hlen : (c.take k).length ≤ k := by
    simp [List.length_take]
  exact ⟨by omega, List.mem_of_mem_take h3⟩

theorem firstSomeAux_spec {l : List (Option ℚ)} {j i : ℕ} {b : ℚ}
    (h : firstSomeAux l j = some (i, b)) : j ≤ i ∧ some b ∈ l := by
  induction l generalizing j with
  | nil => simp [firstSomeAux] at h
  | cons o t ih =>
    cases o with
    | some w =>
      simp only [firstSomeAux] at h
      injection h with h'
      injection h' with h1 h2
      subst h1 h2
      exact ⟨le_refl _, by simp⟩
    | none =>
      simp only [firstSomeAux] at h
      obtain ⟨h1, h2⟩ := ih h
      exact ⟨by omega, List.mem_cons_of_mem _ h2⟩

theorem findNext_spec {c : List (Option ℚ)} {k j : ℕ} {b : ℚ}
    (h : findNext c k = some (j, b)) : k < j ∧ some b ∈ c := by
  obtain ⟨h1, h2⟩ := firstSomeAux_spec h
  exact ⟨by omega, List.mem_of_mem_drop h2⟩

theorem getD_mem {l : List (Option ℚ)} {n : ℕ} (h : n < l.length) :
    l.getD n none ∈ l := by
  rw [List.getD_eq_getElem?_getD, List.getElem?_eq_getElem h]
  exact List.getElem_mem ..

theorem mem_interpolateLinear {v : ℚ} {c : List (Option ℚ)}
    (h : some v ∈ interpolateLinear c) :
    some v ∈ c ∨ ∃ a b t, some a ∈ c ∧ some b ∈ c ∧ 0 ≤ t ∧ t ≤ 1 ∧
      v = a + t * (b - a) := by
  unfold interpolateLinear at h
  rw [List.mem_map] at h
  obtain ⟨k, hk, hv⟩ := h
  rw [List.mem_range] at hk
  rcases ho : c.getD k none with _ | w
  · rw [ho] at hv
    rcases hp : findPrev c k with _ | ⟨i, a⟩
    · rw [hp] at hv; simp at hv
    · rcases hn : findNext c k with _ | ⟨j, b⟩
      · rw [hp, hn] at hv
        simp only [Option.some.injEq] at hv
        obtain ⟨_, hmem⟩ := findPrev_spec hp
        exact Or.inr ⟨a, a, 0, hmem, hmem, le_refl 0, zero_le_one,
          by rw [← hv]; ring⟩
      · rw [hp, hn] at hv
        simp only [Option.some.injEq] at hv
        obtain ⟨hik, hamem⟩ := findPrev_spec hp
        obtain ⟨hkj, hbmem⟩ := findNext_spec hn
        refine Or.inr ⟨a, b, ((k : ℚ) - (i : ℚ)) / ((j : ℚ) - (i : ℚ)),
          hamem, hbmem, ?_, ?_, ?_⟩
        · apply div_nonneg <;>
            · rw [sub_nonneg]
              exact_mod_cast Nat.le_of_lt (by omega)
        · rw [div_le_one (by rw [sub_pos]; exact_mod_cast (by omega : i < j))]
          have : (k : ℚ) ≤ (j : ℚ) := by exact_mod_cast Nat.le_of_lt hkj
          linarith
        · rw [← hv, div_mul_eq_mul_div]
  · rw [ho] at hv
    simp only [Option.some.injEq] at hv
    subst hv
    exact Or.inl (ho ▸ getD_mem hk)

theorem convex_mem {lo hi a b t : ℚ} (ha1 : lo ≤ a) (ha2 : a ≤ hi)
    (hb1 : lo ≤ b) (hb2 : b ≤ hi) (ht0 : 0 ≤ t) (ht1 : t ≤ 1) :
    lo ≤ a + t * (b - a) ∧ a + t * (b - a) ≤ hi := by
  constructor <;> nlinarith

theorem fillColumn_isSome (m : ℚ) (c : List (Option ℚ)) :
    ∀ o ∈ fillColumn m c, o.isSome := by
  intro o ho
  unfold fillColumn at ho
  by_cases h : (interpolateLinear (bfill (ffill c))).any (fun o => o.isNone) = true
  · rw [if_pos h] at ho
    rw [List.mem_map] at ho
    obtain ⟨o', _, rfl⟩ := ho
    rfl
  · rw [if_neg h] at ho
    rw [Bool.not_eq_true, List.any_eq_false] at h
    have := h o ho
    cases o with
    | none => simp at this
    | some w => rfl

theorem mem_fillColumn_range {lo hi m : ℚ} {c : List (Option ℚ)}
    (hm1 : lo ≤ m) (hm2 : m ≤ hi)
    (hc : ∀ v : ℚ, some v ∈ c → lo ≤ v ∧ v ≤ hi) :
    ∀ v : ℚ, some v ∈ fillColumn m c → lo ≤ v ∧ v ≤ hi := by
  have hc3 : ∀ v : ℚ, some v ∈ interpolateLinear (bfill (ffill c)) →
      lo ≤ v ∧ v ≤ hi := by
    intro v hv
    rcases mem_interpolateLinear hv with h | ⟨a, b, t, hma, hmb, ht0, ht1, rfl⟩
    · exact hc v (mem_ffill (mem_bfill h))
    · obtain ⟨ha1, ha2⟩ := hc a (mem_ffill (mem_bfill hma))
      obtain ⟨hb1, hb2⟩ := hc b (mem_ffill (mem_bfill hmb))
      exact convex_mem ha1 ha2 hb1 hb2 ht0 ht1
  intro v hv
  unfold fillColumn at hv
  by_cases h : (interpolateLinear (bfill (ffill c))).any (fun o => o.isNone) = true
  · rw [if_pos h] at hv
    rw [List.mem_map] at hv
    obtain ⟨o, hoMem, hoEq⟩ := hv
    cases o with
    | none =>
      injection hoEq with h'
      subst h'
      exact ⟨hm1, hm2⟩
    | some w =>
      injection hoEq with h'
      subst h'
      exact hc3 w hoMem
  · rw [if_neg h] at hv
    exact hc3 v hv

theorem ffillGo_id {c : List (Option ℚ)} (h : ∀ o ∈ c, o.isSome)
    (acc : Option ℚ) : ffillGo acc c = c := by
  induction c generalizing acc with
  | nil => rfl
  | cons o t ih =>
    cases o with
    | none => exact absurd (h none (List.mem_cons_self _ _)) (by simp)
    | some w =>
      rw [ffillGo, ih (fun o ho => h o (List.mem_cons_of_mem _ ho))]

theorem ffill_id {c : List (Option ℚ)} (h : ∀ o ∈ c, o.isSome) :
    ffill c = c := ffillGo_id h none

theorem bfill_id {c : List (Option ℚ)} (h : ∀ o ∈ c, o.isSome) :
    bfill c = c := by
  unfold bfill
  rw [ffill_id (fun o ho => h o (List.mem_reverse.mp ho)), List.reverse_reverse]

theorem map_getD_range (c : List (Option ℚ)) :
    (List.range c.length).map (fun k => c.getD k none) = c := by
  induction c with
  | nil => rfl
  | cons o t ih =>
    rw [List.length_cons, List.range_succ_eq_map, List.map_cons, List.map_map]
    have hcomp : ((fun k => (o :: t).getD k none) ∘ Nat.succ) =
        (fun k => t.getD k none) := by
      funext k
      simp [List.getD_cons_succ]
    rw [hcomp, ih, List.getD_cons_zero]

theorem interpolateLinear_id {c : List (Option ℚ)} (h : ∀ o ∈ c, o.isSome) :
    interpolateLinear c = c := by
  unfold interpolateLinear
  have : ∀ k ∈ List.range c.length,
      (match c.getD k none with
       | some v => some v
       | none =>
         match findPrev c k, findNext c k with
         | some (i, a), some (j, b) =>
             some (a + (((k : ℚ) - (i : ℚ)) * (b - a)) / ((j : ℚ) - (i : ℚ)))
         | some (_, a), none => some a
         | none, _ => none) = c.getD k none := by
    intro k hk
    rw [List.mem_range] at hk
    have := h _ (getD_mem hk)
    obtain ⟨w, hw⟩ := Option.isSome_iff_exists.mp this
    rw [hw]
  rw [List.map_congr_left this, map_getD_range]

theorem fillColumn_id {m : ℚ} {c : List (Option ℚ)} (h : ∀ o ∈ c, o.isSome) :
    fillColumn m c = c := by
  unfold fillColumn
  rw [ffill_id h, bfill_id h, interpolateLinear_id h]
  rw [if_neg]
  rw [Bool.not_eq_true, List.any_eq_false]
  intro o ho
  have := h o ho
  cases o with
  | none => simp at this
  | some w => simp

/-! ## Lemmas about the cleaning stages -/

theorem midpointOf_range (s : Sensor) :
    (sensorRange s).1 ≤ midpointOf s ∧ midpointOf s ≤ (sensorRange s).2 := by
  cases s <;> norm_num [midpointOf, sensorRange]

theorem mem_map_scrubVal {s : Sensor} {c : List (Option ℚ)} {v : ℚ}
    (h : some v ∈ c.map (scrubVal s)) : inRange s v := by
  rw [List.mem_map] at h
  obtain ⟨o, _, ho⟩ := h
  cases o with
  | none => simp [scrubVal] at ho
  | some w =>
    rw [scrubVal, Option.some_bind] at ho
    by_cases hcond : w < (sensorRange s).1 ∨ (sensorRange s).2 < w
    · rw [if_pos hcond] at ho; exact absurd ho (by simp)
    · rw [if_neg hcond] at ho
      injection ho with ho'
      subst ho'
      push_neg at hcond
      exact ⟨hcond.1, hcond.2⟩

theorem scrubVal_id {s : Sensor} {o : Option ℚ}
    (h : ∀ v, o = some v → inRange s v) : scrubVal s o = o := by
  cases o with
  | none => rfl
  | some w =>
    obtain ⟨h1, h2⟩ := h w rfl
    rw [scrubVal, Option.some_bind,
      if_neg (by push_neg; exact ⟨h1, h2⟩ :
        ¬(w < (sensorRange s).1 ∨ (sensorRange s).2 < w))]

theorem mem_outlierMark {c : List (Option ℚ)} {v : ℚ}
    (h : some v ∈ outlierMark c) : some v ∈ c := by
  by_cases hlen : 4 < (dropna c).length
  · simp only [outlierMark] at h
    rw [if_pos hlen, List.mem_map] at h
    obtain ⟨o, ho, hEq⟩ := h
    cases o with
    | none => simp at hEq
    | some w =>
      rw [Option.some_bind] at hEq
      split at hEq
      · exact absurd hEq (by simp)
      · injection hEq with h'
        subst h'
        exact ho
  · simp only [outlierMark] at h
    rw [if_neg hlen] at h
    exact h

theorem snapCol_fill_missing (d : List Row) (s : Sensor) :
    snapCol s (fill_missing_values d) = fillColumn (midpointOf s) (snapCol s d) :=
  snapCol_mapCols _ (fun s c => fillColumn_length _ c) d s

theorem snapCol_markInvalid (d : List Row) (s : Sensor) :
    snapCol s (markInvalid d) = (snapCol s d).map (scrubVal s) :=
  snapCol_mapCols _ (fun _ c => List.length_map c _) d s

theorem snapCol_remove_invalid (d : List Row) (s : Sensor) :
    snapCol s (remove_invalid_values d) =
      fillColumn (midpointOf s) ((snapCol s d).map (scrubVal s)) := by
  unfold remove_invalid_values
  rw [snapCol_fill_missing, snapCol_markInvalid]

theorem outlierMark_length (c : List (Option ℚ)) :
    (outlierMark c).length = c.length := by
  by_cases hlen : 4 < (dropna c).length <;>
    simp only [outlierMark] <;>
    [rw [if_pos hlen]; rw [if_neg hlen]] <;> simp

theorem snapCol_markOutliers (d : List Row) (s : Sensor) :
    snapCol s (markOutliers d) = outlierMark (snapCol s d) :=
  snapCol_mapCols _ (fun _ c => outlierMark_length c) d s

theorem snapCol_remove_outliers (d : List Row) (s : Sensor) :
    snapCol s (remove_outliers d) =
      fillColumn (midpointOf s) (outlierMark (snapCol s d)) := by
  unfold remove_outliers
  rw [snapCol_fill_missing, snapCol_markOutliers]

theorem remove_invalid_SnapClean (d : List Row) :
    SnapClean (remove_invalid_values d) := by
  intro r hr s
  have hmem : getCol s r ∈ snapCol s (remove_invalid_values d) :=
    List.mem_map_of_mem _ hr
  rw [snapCol_remove_invalid] at hmem
  have hsome := fillColumn_isSome _ _ _ hmem
  obtain ⟨v, hv⟩ := Option.isSome_iff_exists.mp hsome
  refine ⟨v, hv, ?_⟩
  have hrange := mem_fillColumn_range (midpointOf_range s).1 (midpointOf_range s).2
    (fun w hw => mem_map_scrubVal hw) v (hv ▸ hmem)
  exact hrange

theorem remove_outliers_range {d : List Row}
    (hd : ∀ s : Sensor, ∀ v : ℚ, some v ∈ snapCol s d → inRange s v)
    (s : Sensor) : ∀ v : ℚ, some v ∈ snapCol s (remove_outliers d) → inRange s v := by
  intro v hv
  rw [snapCol_remove_outliers] at hv
  exact mem_fillColumn_range (midpointOf_range s).1 (midpointOf_range s).2
    (fun w hw => hd s w (mem_outlierMark hw)) v hv

theorem SnapClean_range {d : List Row} (h : SnapClean d) (s : Sensor) :
    ∀ v : ℚ, some v ∈ snapCol s d → inRange s v := by
  intro v hv
  rw [snapCol, List.mem_map] at hv
  obtain ⟨r, hr, hEq⟩ := hv
  obtain ⟨w, hw, hrange⟩ := h r hr s
  rw [hw] at hEq
  injection hEq with h'
  exact h' ▸ hrange

theorem SnapClean_isSome {d : List Row} (h : SnapClean d) (s : Sensor) :
    ∀ o ∈ snapCol s d, o.isSome := by
  intro o ho
  rw [snapCol, List.mem_map] at ho
  obtain ⟨r, hr, rfl⟩ := ho
  obtain ⟨w, hw, _⟩ := h r hr s
  simp [hw]

theorem markInvalid_id {d : List Row} (h : SnapClean d) : markInvalid d = d := by
  apply mapCols_id
  intro s
  conv_rhs => rw [← List.map_id (snapCol s d)]
  apply List.map_congr_left
  intro o ho
  apply scrubVal_id
  intro v hov
  exact SnapClean_range h s v (hov ▸ ho)

theorem fill_missing_id {d : List Row} (h : SnapClean d) :
    fill_missing_values d = d := by
  apply mapCols_id
  intro s
  exact fillColumn_id (SnapClean_isSome h s)

theorem remove_invalid_id {d : List Row} (h : SnapClean d) :
    remove_invalid_values d = d := by
  unfold remove_invalid_values
  rw [markInvalid_id h, fill_missing_id h]

theorem SnapClean_sortSnap {d : List Row} (h : SnapClean d) :
    SnapClean (sortSnap d) :=
  fun r hr => h r ((List.mem_insertionSort _).mp hr)

theorem fill_missing_length (d : List Row) :
    (fill_missing_values d).length = d.length :=
  mapCols_length _ (fun _ c => fillColumn_length _ c) d

theorem remove_invalid_length (d : List Row) :
    (remove_invalid_values d).length = d.length := by
  unfold remove_invalid_values markInvalid
  rw [fill_missing_length, mapCols_length _ (fun _ c => List.length_map c _)]

/-! ## The cleaning pipeline without outlier removal and smoothing -/

theorem clean_data_eq_of_no_smooth (d : List Row) (ro fm : Bool) (hd : d ≠ []) :
    clean_data d ro fm false =
      sortSnap (if ro then
        remove_outliers (remove_invalid_values
          (if fm then fill_missing_values d else d))
        else remove_invalid_values (if fm then fill_missing_values d else d)) := by
  unfold clean_data
  rw [if_neg hd]
  simp only [Bool.false_eq_true, false_and, if_false]

theorem clean_data_SnapClean (d : List Row) (fm : Bool) :
    SnapClean (clean_data d false fm false) := by
  by_cases hd : d = []
  · subst hd
    intro r hr
    simp [clean_data] at hr
  · rw [clean_data_eq_of_no_smooth d false fm hd]
    simp only [Bool.false_eq_true, if_false]
    exact SnapClean_sortSnap (remove_invalid_SnapClean _)

theorem clean_data_sorted (d : List Row) (fm : Bool) (hd : d ≠ []) :
    List.Sorted rowLe (clean_data d false fm false) := by
  rw [clean_data_eq_of_no_smooth d false fm hd]
  exact List.sorted_insertionSort _ _

theorem clean_data_ne_nil (d : List Row) (fm : Bool) (hd : d ≠ []) :
    clean_data d false fm false ≠ [] := by
  rw [clean_data_eq_of_no_smooth d false fm hd]
  simp only [Bool.false_eq_true, if_false]
  apply List.ne_nil_of_length_pos
  rw [sortSnap, List.length_insertionSort, remove_invalid_length]
  have : d.length ≠ 0 := fun h => hd (List.length_eq_zero.mp h)
  cases hfm : fm <;>
    simp only [Bool.false_eq_true, if_true, if_false, fill_missing_length] <;>
    omega

theorem clean_data_range_aux (d : List Row) (ro fm : Bool) :
    ∀ r ∈ clean_data d ro fm false, ∀ s : Sensor, ∀ v : ℚ,
      getCol s r = some v → inRange s v := by
  by_cases hd : d = []
  · subst hd
    intro r hr
    simp [clean_data] at hr
  · intro r hr s v hv
    rw [clean_data_eq_of_no_smooth d ro fm hd] at hr
    rw [sortSnap, List.mem_insertionSort] at hr
    have hC2 := remove_invalid_SnapClean (if fm then fill_missing_values d else d)
    cases hro : ro with
    | false =>
      rw [hro, if_neg (by simp)] at hr
      obtain ⟨w, hw, hrange⟩ := hC2 r hr s
      rw [hw] at hv
      injection hv with h'
      exact h' ▸ hrange
    | true =>
      rw [hro, if_pos rfl] at hr
      have hmem : some v ∈ snapCol s (remove_outliers
          (remove_invalid_values (if fm then fill_missing_values d else d))) := by
        rw [snapCol, List.mem_map]
        exact ⟨r, hr, hv⟩
      exact remove_outliers_range (fun s' w hw => SnapClean_range hC2 s' w hw) s v hmem

theorem clean_idempotent_aux (d : List Row) (fm : Bool) :
    clean_data (clean_data d false fm false) false fm false =
      clean_data d false fm false := by
  by_cases hd : d = []
  · subst hd
    simp [clean_data]
  · have hDne := clean_data_ne_nil d fm hd
    have hclean := clean_data_SnapClean d fm
    have hsorted := clean_data_sorted d fm hd
    rw [clean_data_eq_of_no_smooth _ false fm hDne]
    simp only [Bool.false_eq_true, if_false]
    have hfill : (if fm then fill_missing_values (clean_data d false fm false)
        else clean_data d false fm false) = clean_data d false fm false := by
      cases fm with
      | false => rfl
      | true => exact fill_missing_id hclean
    rw [hfill, remove_invalid_id hclean, sortSnap, hsorted.insertionSort_eq]

set_option maxHeartbeats 2000000 in
theorem cleanA_eval : clean_data snapA true true false = snapA1 := by
  rw [clean_data, if_neg (by simp [snapA, tRow])]
  norm_num [snapA, snapA1, tRow, fRow, fill_missing_values, remove_invalid_values,
    remove_outliers, markInvalid, markOutliers, outlierMark, scrubVal, quantileQ,
    sortQ, dropna, midpointOf, mapCols, rebuild, snapCol, getCol, fillColumn,
    ffill, ffillGo, bfill, interpolateLinear, findPrev, findNext, lastSomeAux,
    firstSomeAux, List.range_succ, Int.toNat, List.getD, List.getElem?_cons,
    sensorRange, sortSnap, List.insertionSort, List.orderedInsert, rowLe]

set_option maxHeartbeats 2000000 in
theorem cleanA2_eval : clean_data snapA1 true true false = snapA2 := by
  rw [clean_data, if_neg (by simp [snapA1, fRow])]
  norm_num [snapA1, snapA2, tRow, fRow, fill_missing_values, remove_invalid_values,
    remove_outliers, markInvalid, markOutliers, outlierMark, scrubVal, quantileQ,
    sortQ, dropna, midpointOf, mapCols, rebuild, snapCol, getCol, fillColumn,
    ffill, ffillGo, bfill, interpolateLinear, findPrev, findNext, lastSomeAux,
    firstSomeAux, List.range_succ, Int.toNat, List.getD, List.getElem?_cons,
    sensorRange, sortSnap, List.insertionSort, List.orderedInsert, rowLe]

set_option maxHeartbeats 4000000 in
theorem cleanB_eval : clean_data snapB false false true = snapB1 := by
  rw [clean_data, if_neg (by simp [snapB, tRow])]
  norm_num [snapB, snapB1, tRow, fRow, fill_missing_values, remove_invalid_values,
    markInvalid, scrubVal, dropna, midpointOf, mapCols, rebuild, snapCol, getCol,
    fillColumn, ffill, ffillGo, bfill, interpolateLinear, findPrev, findNext,
    lastSomeAux, firstSomeAux, List.range_succ, Int.toNat, List.getD,
    List.getElem?_cons, sensorRange, sortSnap, List.insertionSort,
    List.orderedInsert, rowLe, apply_smoothing, allSome, savgol5, quadFit5,
    List.filterMap_cons, List.filterMap_nil]

set_option maxHeartbeats 4000000 in
theorem cleanB2_eval : clean_data snapB1 false false true = snapB2 := by
  rw [clean_data, if_neg (by simp [snapB1, fRow])]
  norm_num [snapB1, snapB2, tRow, fRow, fill_missing_values, remove_invalid_values,
    markInvalid, scrubVal, dropna, midpointOf, mapCols, rebuild, snapCol, getCol,
    fillColumn, ffill, ffillGo, bfill, interpolateLinear, findPrev, findNext,
    lastSomeAux, firstSomeAux, List.range_succ, Int.toNat, List.getD,
    List.getElem?_cons, sensorRange, sortSnap, List.insertionSort,
    List.orderedInsert, rowLe, apply_smoothing, allSome, savgol5, quadFit5,
    List.filterMap_cons, List.filterMap_nil]

set_option maxHeartbeats 2000000 in
theorem cleanC_eval : ∀ ro fm : Bool,
    snapCol .temperature (clean_data snapC ro fm false) = snapC1 := by
  intro ro fm
  cases ro <;> cases fm <;>
    (rw [clean_data, if_neg (by simp [snapC, tRow])]
     norm_num [snapC, snapC1, tRow, fill_missing_values, remove_invalid_values,
       remove_outliers, markInvalid, markOutliers, outlierMark, scrubVal,
       quantileQ, sortQ, dropna, midpointOf, mapCols, rebuild, snapCol, getCol,
       fillColumn, ffill, ffillGo, bfill, interpolateLinear, findPrev, findNext,
       lastSomeAux, firstSomeAux, List.range_succ, Int.toNat, List.getD,
       List.getElem?_cons, sensorRange, sortSnap, List.insertionSort,
       List.orderedInsert, rowLe])

/-! ## Claim C1 -/

/-- C1 (amended): the cleaning pipeline is idempotent when outlier removal
and smoothing are both disabled (for either setting of `fillMissing`):
`clean(clean(S, opts), opts) = clean(S, opts)`.  With outlier removal or
smoothing enabled idempotence fails (see the counterexample). -/
theorem clean_idempotent_no_outliers_no_smoothing (d : List Row) (fm : Bool) :
    clean_data (clean_data d false fm false) false fm false =
      clean_data d false fm false :=
  clean_idempotent_aux d fm

/-- C1 (counterexample): as stated — for every option combination — the
idempotence claim is false.  With outlier removal enabled a second pass
changes `snapA` further (the first repair moves the IQR bounds), and with
smoothing enabled a second pass changes `snapB` further. -/
theorem clean_not_idempotent_with_outliers_or_smoothing :
    clean_data (clean_data snapA true true false) true true false ≠
      clean_data snapA true true false ∧
    clean_data (clean_data snapB false false true) false false true ≠
      clean_data snapB false false true := by
  constructor
  · rw [cleanA_eval, cleanA2_eval]
    intro h
    have h2 := congrArg (fun l => (l.map (fun r => r.temperature)).getD 2 none) h
    norm_num [snapA1, snapA2, fRow, List.getD, List.getElem?_cons] at h2
  · rw [cleanB_eval, cleanB2_eval]
    intro h
    have h2 := congrArg (fun l => (l.map (fun r => r.temperature)).getD 0 none) h
    norm_num [snapB1, snapB2, fRow, List.getD, List.getElem?_cons] at h2

/-! ## Claim C3 -/

/-- C3 (amended): with smoothing disabled, the invalid-value scrub always
runs (whatever the `fillMissing` and `removeOutliers` flags) and every
sensor value present in the cleaned output lies within its sensor's valid
range; in particular, for input temperatures `20, 1000, 22` at consecutive
timestamps the cleaned middle value is the repaired in-range `20`, not
`1000`.  (With smoothing enabled the range guarantee fails, see the
counterexample.) -/
theorem clean_values_in_range_no_smoothing :
    (∀ (d : List Row) (ro fm : Bool), ∀ r ∈ clean_data d ro fm false,
      ∀ (s : Sensor) (v : ℚ), getCol s r = some v → inRange s v) ∧
    (∀ ro fm : Bool, snapCol .temperature (clean_data snapC ro fm false) = snapC1) :=
  ⟨fun d ro fm => clean_data_range_aux d ro fm, cleanC_eval⟩

/-- C3 (witness): the range theorem applied to the concrete cleaned
snapshot `clean_data snapA true true false`, at its middle row's
temperature `20`. -/
theorem clean_values_in_range_witness : inRange Sensor.temperature 20 :=
  clean_values_in_range_no_smoothing.1 snapA true true
    (fRow 2 20 500 50 100000)
    (by rw [cleanA_eval]; simp [snapA1]) Sensor.temperature 20 rfl

/-- C3 (counterexample): with smoothing enabled the cleaned output can
contain out-of-range values — the smoothed temperature column of `snapB`
ends with `800/7 > 100`. -/
theorem clean_smoothing_exceeds_range :
    snapCol Sensor.temperature (clean_data snapB false false true) =
      [some (60/7), some (-100/7), some (-60/7), some (180/7), some (440/7),
       some (800/7)] ∧
    ¬ inRange Sensor.temperature (800/7) := by
  constructor
  · rw [cleanB_eval]
    simp [snapB1, fRow, snapCol, getCol]
  · norm_num [inRange, sensorRange]

/-! ## Lemmas about the store -/

theorem add_reading_none {st : List Row} {r : RawReading}
    (h : r.timestamp = none) : add_reading st r = (false, st) := by
  unfold add_reading
  rw [h]

theorem add_reading_some {st : List Row} {r : RawReading} {t : ℚ}
    (h : r.timestamp = some t) :
    (add_reading st r).2 =
      (sortSnap (st ++ [toRow r t])).drop
        ((sortSnap (st ++ [toRow r t])).length - maxRecords) := by
  unfold add_reading
  rw [h]
  dsimp only
  by_cases hlen : maxRecords < (sortSnap (st ++ [toRow r t])).length
  · rw [if_pos hlen]
  · rw [if_neg hlen]
    have : (sortSnap (st ++ [toRow r t])).length - maxRecords = 0 := by omega
    rw [this, List.drop_zero]

theorem add_reading_invariant {st : List Row} (hl : st.length ≤ maxRecords)
    (r : RawReading) :
    List.Sorted rowLe (add_reading st r).2 ∨ (add_reading st r).2 = st := by
  cases hts : r.timestamp with
  | none => rw [add_reading_none hts]; exact Or.inr rfl
  | some t =>
    rw [add_reading_some hts]
    exact Or.inl (List.Pairwise.sublist (List.drop_sublist _ _)
      (List.sorted_insertionSort _ _))

theorem add_reading_length {st : List Row} (hl : st.length ≤ maxRecords)
    (r : RawReading) : (add_reading st r).2.length ≤ maxRecords := by
  cases hts : r.timestamp with
  | none => rw [add_reading_none hts]; exact hl
  | some t =>
    unfold add_reading
    rw [hts]
    dsimp only
    by_cases hlen : maxRecords < (sortSnap (st ++ [toRow r t])).length
    · rw [if_pos hlen]
      rw [List.length_drop]
      omega
    · rw [if_neg hlen]
      omega

theorem add_reading_sorted {st : List Row} (hs : List.Sorted rowLe st)
    (r : RawReading) : List.Sorted rowLe (add_reading st r).2 := by
  cases hts : r.timestamp with
  | none => rw [add_reading_none hts]; exact hs
  | some t =>
    rw [add_reading_some hts]
    exact List.Pairwise.sublist (List.drop_sublist _ _)
      (List.sorted_insertionSort _ _)

theorem applyReadings_invariant (rs : List RawReading) :
    List.Sorted rowLe (applyReadings rs) ∧
      (applyReadings rs).length ≤ maxRecords := by
  suffices h : ∀ (rs : List RawReading) (st : List Row),
      List.Sorted rowLe st → st.length ≤ maxRecords →
      List.Sorted rowLe (rs.foldl (fun st r => (add_reading st r).2) st) ∧
        (rs.foldl (fun st r => (add_reading st r).2) st).length ≤ maxRecords by
    exact h rs [] (List.sorted_nil) (by simp [maxRecords])
  intro rs
  induction rs with
  | nil => exact fun st hs hl => ⟨hs, hl⟩
  | cons r rs ih =>
    intro st hs hl
    exact ih _ (add_reading_sorted hs r) (add_reading_length hl r)

/-! ## Claim C2 -/

/-- C2: after every sequence of appends to a fresh store, the store is
sorted by timestamp ascending and holds at most `maxRecords = 10000` rows;
and each successful append keeps exactly the timestamp-largest rows of the
sorted extended buffer — every evicted row's timestamp is at most every
kept row's timestamp. -/
theorem store_invariants :
    (∀ rs : List RawReading, List.Sorted rowLe (applyReadings rs) ∧
      (applyReadings rs).length ≤ maxRecords) ∧
    (∀ (rs : List RawReading) (r : RawReading) (t : ℚ), r.timestamp = some t →
      (add_reading (applyReadings rs) r).2 =
        (sortSnap (applyReadings rs ++ [toRow r t])).drop
          ((sortSnap (applyReadings rs ++ [toRow r t])).length - maxRecords) ∧
      ∀ a ∈ (sortSnap (applyReadings rs ++ [toRow r t])).take
          ((sortSnap (applyReadings rs ++ [toRow r t])).length - maxRecords),
        ∀ b ∈ (add_reading (applyReadings rs) r).2, a.timestamp ≤ b.timestamp) := by
  refine ⟨applyReadings_invariant, ?_⟩
  intro rs r t ht
  refine ⟨add_reading_some ht, ?_⟩
  intro a ha b hb
  rw [add_reading_some ht] at hb
  set full := sortSnap (applyReadings rs ++ [toRow r t]) with hfull
  set k := full.length - maxRecords with hk
  have hsorted : List.Sorted rowLe full := List.sorted_insertionSort _ _
  rw [← List.take_append_drop k full, List.Sorted, List.pairwise_append] at hsorted
  exact hsorted.2.2 a ha b hb

/-- C2 (witness): the eviction decomposition instantiated on the concrete
store built from `okReading1, okReading2` with `okReading3` appended. -/
theorem store_invariants_witness :
    (add_reading (applyReadings [okReading1, okReading2]) okReading3).2 =
      (sortSnap (applyReadings [okReading1, okReading2] ++ [toRow okReading3 4])).drop
        ((sortSnap (applyReadings [okReading1, okReading2] ++
          [toRow okReading3 4])).length - maxRecords) :=
  (store_invariants.2 [okReading1, okReading2] okReading3 4 rfl).1

/-! ## Claim C8 -/

/-- C8: appending a reading whose timestamp cannot be normalized returns
`false` and leaves the store contents exactly unchanged (the exception is
raised before any mutation). -/
theorem add_reading_unparsable (st : List Row) (r : RawReading)
    (h : r.timestamp = none) : add_reading st r = (false, st) :=
  add_reading_none h

/-- C8 (witness): the unparsable reading `badReading` appended to a
one-row store. -/
theorem add_reading_unparsable_witness :
    add_reading [tRow 0 (some 20)] badReading = (false, [tRow 0 (some 20)]) :=
  add_reading_unparsable [tRow 0 (some 20)] badReading rfl

/-! ## Claim C9 -/

/-- C9 (amended): for every NON-empty store, an export format outside
`{csv, json}` (case insensitive) raises `ValueError`; but for the empty
store, export returns the empty string before the format is ever checked,
for every format name. -/
theorem export_unsupported_format :
    (∀ (st : List Row) (fmt : String), st ≠ [] → strLower fmt ≠ "csv" →
      strLower fmt ≠ "json" →
      get_data_for_export st fmt = .error ("Unsupported format: " ++ fmt)) ∧
    (∀ fmt : String, get_data_for_export [] fmt = .ok "") := by
  constructor
  · intro st fmt hne hcsv hjson
    unfold get_data_for_export
    rw [if_neg hne, if_neg hcsv, if_neg hjson]
  · intro fmt
    unfold get_data_for_export
    rw [if_pos rfl]

/-- C9 (witness): exporting a one-row store as `"xml"` raises. -/
theorem export_unsupported_format_witness :
    get_data_for_export [tRow 0 (some 20)] "xml" =
      .error ("Unsupported format: " ++ "xml") :=
  export_unsupported_format.1 [tRow 0 (some 20)] "xml" (by simp)
    (by decide) (by decide)

/-- C9 (counterexample): the claim as stated quantifies over every store
state, but the EMPTY store returns a successful empty export for the
unsupported format `"xml"` — no error is raised there. -/
theorem export_unsupported_format_counterexample :
    get_data_for_export [] "xml" = .ok "" ∧
      ∀ msg : String, get_data_for_export [] "xml" ≠ .error msg := by
  refine ⟨rfl, ?_⟩
  intro msg h
  rw [show get_data_for_export [] "xml" = .ok "" from rfl] at h
  exact Except.noConfusion h

/-! ## Claim C4 -/

/-- C4 (amended): every Analytics operation tolerates the empty snapshot
without raising an exception; six of the seven return an empty
mapping/list, while `generate_insights` returns the single no-data message
record (a one-element list, not the empty list). -/
theorem analytics_empty_snapshot :
    calculate_statistics [] = none ∧
    analyze_trends [] = [] ∧
    (∀ method : String, detect_anomalies [] method = Except.ok []) ∧
    calculate_sensor_health [] = [] ∧
    analyze_correlations [] = none ∧
    generate_insights [] = [Insight.noData] ∧
    get_performance_metrics [] = none :=
  ⟨rfl, rfl, fun _ => rfl, rfl, rfl, rfl, rfl⟩

/-- C4 (counterexample): as stated the claim requires an empty mapping or
empty list from every operation, but `generate_insights` returns a
NON-empty list (the no-data message) on the empty snapshot. -/
theorem generate_insights_empty_nonempty :
    generate_insights [] = [Insight.noData] ∧ generate_insights [] ≠ [] := by
  refine ⟨rfl, ?_⟩
  intro h
  rw [show generate_insights [] = [Insight.noData] from rfl] at h
  exact List.cons_ne_nil _ _ h

/-! ## Lemmas about anomaly detection -/

theorem colWithIndexAux_length (c : List (Option ℚ)) : ∀ n : ℕ,
    ((List.enumFrom n c).filterMap
      (fun p => p.2.map (fun v => (p.1, v)))).length = (dropna c).length := by
  induction c with
  | nil => intro n; rfl
  | cons o t ih =>
    intro n
    cases o with
    | none => simpa [List.enumFrom, dropna, List.filterMap_cons] using ih (n + 1)
    | some v => simpa [List.enumFrom, dropna, List.filterMap_cons] using ih (n + 1)

theorem colWithIndex_length (s : Sensor) (d : List Row) :
    (colWithIndex s d).length = (dropna (snapCol s d)).length := by
  unfold colWithIndex
  rw [show (snapCol s d).enum = List.enumFrom 0 (snapCol s d) from rfl]
  exact colWithIndexAux_length _ 0

theorem mem_sensorList (s : Sensor) : s ∈ sensorList := by
  cases s <;> simp [sensorList]

theorem anomaly_entries_mem {data : List Row} {method : String} {s : Sensor}
    {e : AnomalyEntry} (h : (s, e) ∈ anomaly_entries data method) :
    ¬ (colWithIndex s data).length < 3 ∧
      e = anomalyRecord method (colWithIndex s data) := by
  unfold anomaly_entries at h
  split at h
  · exact absurd h (List.not_mem_nil _)
  · rw [List.mem_filterMap] at h
    obtain ⟨s', _, hf⟩ := h
    by_cases hlen : (colWithIndex s' data).length < 3
    · rw [if_pos hlen] at hf
      exact absurd hf (by simp)
    · rw [if_neg hlen] at hf
      injection hf with hf'
      cases congrArg Prod.fst hf'
      exact ⟨hlen, (congrArg Prod.snd hf').symm⟩

theorem detect_anomalies_foldlM_supported (data : List Row) (method : String)
    (hm : method = "zscore" ∨ method = "iqr") :
    ∀ (ss : List Sensor) (acc : List (Sensor × AnomalyEntry)),
      (ss.foldlM (fun acc s =>
        let pairs := colWithIndex s data
        if pairs.length < 3 then Except.ok acc
        else (anomalyEntryExc method pairs).map (fun e => acc ++ [(s, e)])) acc :
          Except String (List (Sensor × AnomalyEntry)))
      = Except.ok (acc ++ ss.filterMap (fun s =>
          let pairs := colWithIndex s data
          if pairs.length < 3 then none
          else some (s, anomalyRecord method pairs))) := by
  intro ss
  induction ss with
  | nil => intro acc; rw [List.foldlM_nil, List.filterMap_nil, List.append_nil]; rfl
  | cons s ss ih =>
    intro acc
    rw [List.foldlM_cons]
    dsimp only
    by_cases hlen : (colWithIndex s data).length < 3
    · rw [if_pos hlen]
      exact (ih acc).trans (by
        rw [List.filterMap_cons_none (by rw [if_pos hlen])])
    · rw [if_neg hlen, anomalyEntryExc, if_pos hm]
      exact (ih (acc ++ [(s, anomalyRecord method (colWithIndex s data))])).trans (by
        rw [List.filterMap_cons_some (by rw [if_neg hlen]),
          List.append_assoc, List.singleton_append])

theorem detect_anomalies_supported (data : List Row) (method : String)
    (hm : method = "zscore" ∨ method = "iqr") :
    detect_anomalies data method = Except.ok (anomaly_entries data method) := by
  unfold detect_anomalies anomaly_entries
  by_cases hd : data = []
  · rw [if_pos hd, if_pos hd]
  · rw [if_neg hd, if_neg hd, detect_anomalies_foldlM_supported data method hm sensorList []]
    rw [List.nil_append]

/-! ## Claim C7 -/

/-- C7 (code bug): the spec requires an unknown anomaly-detection method
to yield an empty per-sensor result without an error, but the source
assigns `anomaly_indices = []` — a plain Python list — in the unknown-
method branch and then calls `anomaly_indices.tolist()`, which raises
`AttributeError` as soon as some column has at least 3 non-missing
values.  Evaluated here at the failing input: three temperature readings
with the docstring's own method name `"isolation"`. -/
theorem detect_anomalies_unknown_method_raises :
    detect_anomalies anomSnap "isolation" =
      Except.error "AttributeError: list object has no attribute tolist" ∧
    ∀ l : List (Sensor × AnomalyEntry),
      detect_anomalies anomSnap "isolation" ≠ Except.ok l := by
  have h : detect_anomalies anomSnap "isolation" =
      Except.error "AttributeError: list object has no attribute tolist" := by
    unfold detect_anomalies
    rw [if_neg (by simp [anomSnap])]
    rw [show sensorList =
      [Sensor.temperature, Sensor.weight, Sensor.moisture, Sensor.pressure] from rfl]
    rw [List.foldlM_cons]
    dsimp only
    rw [if_neg (by decide : ¬ (colWithIndex Sensor.temperature anomSnap).length < 3)]
    rw [anomalyEntryExc, if_neg (by decide)]
    rfl
  refine ⟨h, ?_⟩
  intro l hl
  rw [h] at hl
  exact Except.noConfusion hl

/-! ## Claim C10 -/

/-- C10: for a non-empty snapshot and a supported method, the result of
`detect_anomalies` is a successful entry list that contains an entry for a
sensor exactly when that sensor's column has at least 3 non-missing
values; smaller columns are silently omitted. -/
theorem detect_anomalies_entry_iff (data : List Row) (method : String)
    (s : Sensor) (hne : data ≠ []) (hm : method = "zscore" ∨ method = "iqr") :
    (∃ (l : List (Sensor × AnomalyEntry)) (e : AnomalyEntry),
        detect_anomalies data method = Except.ok l ∧ (s, e) ∈ l) ↔
      3 ≤ (dropna (snapCol s data)).length := by
  rw [detect_anomalies_supported data method hm]
  constructor
  · rintro ⟨l, e, hl, hmem⟩
    injection hl with hl'
    subst hl'
    obtain ⟨hlen, _⟩ := anomaly_entries_mem hmem
    rw [colWithIndex_length] at hlen
    omega
  · intro hlen
    have hguard : ¬ (colWithIndex s data).length < 3 := by
      rw [colWithIndex_length]; omega
    refine ⟨anomaly_entries data method,
      anomalyRecord method (colWithIndex s data), rfl, ?_⟩
    unfold anomaly_entries
    rw [if_neg hne, List.mem_filterMap]
    exact ⟨s, mem_sensorList s, by rw [if_neg hguard]⟩

/-- C10 (witness): on `anomSnap` with the supported method `"iqr"`, the
call succeeds, the temperature column (3 values) gets an entry and the
weight column (2 values) is omitted. -/
theorem detect_anomalies_entry_iff_witness :
    (∃ (l : List (Sensor × AnomalyEntry)) (e : AnomalyEntry),
        detect_anomalies anomSnap "iqr" = Except.ok l ∧
          (Sensor.temperature, e) ∈ l) ∧
      ¬ (∃ (l : List (Sensor × AnomalyEntry)) (e : AnomalyEntry),
          detect_anomalies anomSnap "iqr" = Except.ok l ∧
            (Sensor.weight, e) ∈ l) := by
  constructor
  · exact (detect_anomalies_entry_iff anomSnap "iqr" Sensor.temperature
      (by simp [anomSnap]) (Or.inr rfl)).mpr (by decide)
  · intro h
    have := (detect_anomalies_entry_iff anomSnap "iqr" Sensor.weight
      (by simp [anomSnap]) (Or.inr rfl)).mp h
    revert this
    decide

/-! ## Lemmas about sensor health -/

theorem round_le_round {x y : ℝ} (h : x ≤ y) : round x ≤ round y := by
  rw [round_eq, round_eq]
  exact Int.floor_mono (by linarith)

theorem round2_bounds {y : ℝ} (h0 : 0 ≤ y) (h1 : y ≤ 100) :
    0 ≤ round2 y ∧ round2 y ≤ 100 := by
  unfold round2
  constructor
  · apply div_nonneg _ (by norm_num)
    have hr : (0 : ℤ) ≤ round (y * 100) := by
      have := round_le_round (by linarith : (0 : ℝ) ≤ y * 100)
      simpa using this
    exact_mod_cast hr
  · rw [div_le_iff (by norm_num : (0 : ℝ) < 100)]
    have hr : round (y * 100) ≤ (10000 : ℤ) := by
      have := round_le_round (by linarith : y * 100 ≤ (10000 : ℝ))
      rwa [show ((10000 : ℝ)) = ((10000 : ℤ) : ℝ) by norm_num, round_intCast] at this
    calc ((round (y * 100) : ℤ) : ℝ) ≤ ((10000 : ℤ) : ℝ) := by exact_mod_cast hr
    _ = 100 * 100 := by norm_num

theorem round2_int (k : ℤ) : round2 ((k : ℝ)) = (k : ℝ) := by
  unfold round2
  rw [show ((k : ℝ) * 100) = (((k * 100 : ℤ)) : ℝ) by push_cast; ring, round_intCast]
  push_cast
  field_simp

theorem healthEntry_score_bounds (c : List (Option ℚ)) :
    0 ≤ (healthEntry c).health_score ∧ (healthEntry c).health_score ≤ 100 := by
  unfold healthEntry
  dsimp only
  set availability : ℝ := (((dropna c).length : ℝ) / (c.length : ℝ)) * 100 with hav
  set cv : ℝ := cvGuarded (qListToR (dropna c)) with hcv
  set recentCv : ℝ := cvGuarded (qListToR (dropna
    (c.drop (c.length - max 1 (c.length / 10))))) with hrcv
  have hav0 : 0 ≤ availability := by
    rw [hav]
    positivity
  have hav100 : availability ≤ 100 := by
    rw [hav]
    rcases Nat.eq_zero_or_pos c.length with h | h
    · rw [h]
      norm_num
    · have hle : ((dropna c).length : ℝ) / (c.length : ℝ) ≤ 1 := by
        rw [div_le_one (by exact_mod_cast h)]
        exact_mod_cast List.length_filterMap_le _ _
      nlinarith
  have ht1 : 0 ≤ (100 - min cv 100) * (3 / 10) := by
    have := min_le_right cv (100 : ℝ)
    nlinarith
  have ht2 : 0 ≤ (100 - min recentCv 100) * (3 / 10) := by
    have := min_le_right recentCv (100 : ℝ)
    nlinarith
  have hX : 0 ≤ availability * (4 / 10) + (100 - min cv 100) * (3 / 10) +
      (100 - min recentCv 100) * (3 / 10) := by nlinarith
  have hscore0 : 0 ≤ min (100 : ℝ) (availability * (4 / 10) +
      (100 - min cv 100) * (3 / 10) + (100 - min recentCv 100) * (3 / 10)) :=
    le_min (by norm_num) hX
  have hscore100 : min (100 : ℝ) (availability * (4 / 10) +
      (100 - min cv 100) * (3 / 10) + (100 - min recentCv 100) * (3 / 10)) ≤ 100 :=
    min_le_left _ _
  exact round2_bounds hscore0 hscore100

theorem meanR_replicate {n : ℕ} (hn : n ≠ 0) (x : ℝ) :
    meanR (List.replicate n x) = x := by
  unfold meanR
  rw [List.sum_replicate, List.length_replicate, nsmul_eq_mul]
  have : (n : ℝ) ≠ 0 := Nat.cast_ne_zero.mpr hn
  field_simp

theorem sqDevSum_replicate (n : ℕ) (x : ℝ) :
    sqDevSum (List.replicate n x) = 0 := by
  cases n with
  | zero => rfl
  | succ m =>
    unfold sqDevSum
    rw [List.map_replicate, meanR_replicate (Nat.succ_ne_zero m), sub_self]
    simp

theorem stdR_replicate (n : ℕ) (x : ℝ) : stdR (List.replicate n x) = 0 := by
  unfold stdR sampleVar
  rw [sqDevSum_replicate, zero_div, Real.sqrt_zero]

theorem cvGuarded_replicate {n : ℕ} (hn : n ≠ 0) {x : ℝ} (hx : x ≠ 0) :
    cvGuarded (List.replicate n x) = 0 := by
  unfold cvGuarded
  rw [meanR_replicate hn, stdR_replicate]
  rw [if_pos hx, zero_div, zero_mul]

theorem dropna_replicate_some (n : ℕ) (c : ℚ) :
    dropna (List.replicate n (some c)) = List.replicate n c := by
  unfold dropna
  simp [List.filterMap_replicate]

theorem healthEntry_replicate {n : ℕ} (hn : n ≠ 0) {c : ℚ} (hc : c ≠ 0) :
    (healthEntry (List.replicate n (some c))).health_score = 100 ∧
      (healthEntry (List.replicate n (some c))).status = HealthStatus.Excellent := by
  have hrc : max 1 (n / 10) ≤ n := by
    have := Nat.div_le_self n 10
    omega
  have hdroprep : (List.replicate n (some c)).drop
      ((List.replicate n (some c)).length - max 1 ((List.replicate n (some c)).length / 10)) =
      List.replicate (max 1 (n / 10)) (some c) := by
    rw [List.length_replicate, List.drop_replicate]
    congr 1
    omega
  have hcast : ((c : ℝ)) ≠ 0 := by exact_mod_cast hc
  have hcv : cvGuarded (qListToR (dropna (List.replicate n (some c)))) = 0 := by
    rw [dropna_replicate_some, qListToR, List.map_replicate]
    exact cvGuarded_replicate hn hcast
  have hrcv : cvGuarded (qListToR (dropna (List.replicate (max 1 (n / 10)) (some c)))) = 0 := by
    rw [dropna_replicate_some, qListToR, List.map_replicate]
    exact cvGuarded_replicate (by omega) hcast
  have hav : (((dropna (List.replicate n (some c))).length : ℝ) /
      ((List.replicate n (some c)).length : ℝ)) * 100 = 100 := by
    rw [dropna_replicate_some, List.length_replicate, List.length_replicate,
      div_self (Nat.cast_ne_zero.mpr hn), one_mul]
  have hscore : min (100 : ℝ)
      ((((dropna (List.replicate n (some c))).length : ℝ) /
        ((List.replicate n (some c)).length : ℝ)) * 100 * (4 / 10) +
       (100 - min (cvGuarded (qListToR (dropna (List.replicate n (some c))))) 100) *
         (3 / 10) +
       (100 - min (cvGuarded (qListToR (dropna ((List.replicate n (some c)).drop
         ((List.replicate n (some c)).length -
           max 1 ((List.replicate n (some c)).length / 10)))))) 100) * (3 / 10)) = 100 := by
    rw [hav, hcv, hdroprep, hrcv]
    norm_num
  unfold healthEntry
  dsimp only
  rw [hscore]
  constructor
  · rw [show ((100 : ℝ)) = (((100 : ℤ)) : ℝ) by norm_num, round2_int]
  · rw [if_pos (by norm_num : (90 : ℝ) ≤ 100)]

/-! ## Claim C5 -/

/-- C5 (amended): every health score `calculate_sensor_health` produces
lies within `[0, 100]`; and a column with full availability and zero
variance (a constant column) whose constant — and hence mean — is NONZERO
scores exactly `100` with status Excellent.  (When the constant is zero
the `mean != 0` guard sets both CVs to 100 and the score is 40, status
Poor; see the counterexample.) -/
theorem health_score_bounds :
    (∀ (data : List Row) (s : Sensor) (e : HealthEntry),
        (s, e) ∈ calculate_sensor_health data →
        0 ≤ e.health_score ∧ e.health_score ≤ 100) ∧
    (∀ (data : List Row) (s : Sensor) (c : ℚ), data ≠ [] → c ≠ 0 →
        snapCol s data = List.replicate data.length (some c) →
        ∃ e, (s, e) ∈ calculate_sensor_health data ∧
          e.health_score = 100 ∧ e.status = HealthStatus.Excellent) := by
  constructor
  · intro data s e h
    unfold calculate_sensor_health at h
    split at h
    · exact absurd h (List.not_mem_nil _)
    · rw [List.mem_map] at h
      obtain ⟨s', _, heq⟩ := h
      have he : e = healthEntry (snapCol s' data) := (congrArg Prod.snd heq).symm
      rw [he]
      exact healthEntry_score_bounds _
  · intro data s c hne hc hcol
    refine ⟨healthEntry (snapCol s data), ?_, ?_⟩
    · unfold calculate_sensor_health
      rw [if_neg hne, List.mem_map]
      exact ⟨s, mem_sensorList s, rfl⟩
    · rw [hcol]
      exact healthEntry_replicate (fun h => hne (List.length_eq_zero.mp h)) hc

/-- C5 (witness): a constant nonzero temperature column (three readings of
`5`) scores `100` Excellent, via the theorem. -/
theorem health_score_bounds_witness :
    ∃ e, (Sensor.temperature, e) ∈ calculate_sensor_health healthSnap5 ∧
      e.health_score = 100 ∧ e.status = HealthStatus.Excellent :=
  health_score_bounds.2 healthSnap5 Sensor.temperature 5 (by simp [healthSnap5])
    (by norm_num) (by decide)

theorem healthEntry_zeros :
    healthEntry [some (0 : ℚ), some 0, some 0] = healthEntry0 := by
  have hm3 : meanR [(0 : ℝ), 0, 0] = 0 := by norm_num [meanR]
  have hm1 : meanR [(0 : ℝ)] = 0 := by norm_num [meanR]
  unfold healthEntry
  dsimp only
  norm_num [List.drop, cvGuarded, hm3, hm1, dropna, qListToR,
    List.filterMap_cons, healthEntry0, round2, min_def]

theorem calculate_sensor_health_zeros :
    calculate_sensor_health healthSnap0 =
      [(Sensor.temperature, healthEntry0), (Sensor.weight, healthEntry0),
       (Sensor.moisture, healthEntry0), (Sensor.pressure, healthEntry0)] := by
  have hcol : ∀ s : Sensor, snapCol s healthSnap0 = [some 0, some 0, some 0] := by
    intro s
    cases s <;> rfl
  unfold calculate_sensor_health
  rw [if_neg (by simp [healthSnap0])]
  simp only [sensorList, List.map_cons, List.map_nil, hcol, healthEntry_zeros]

/-- C5 (counterexample): the temperature column of `healthSnap0` is
constant `0` — full availability and zero variance — yet its health score
is `40` with status Poor, not `100` Excellent: the `mean != 0` guard turns
both CVs into `100`. -/
theorem health_zero_mean_counterexample :
    snapCol Sensor.temperature healthSnap0 = List.replicate 3 (some 0) ∧
    (Sensor.temperature, healthEntry0) ∈ calculate_sensor_health healthSnap0 ∧
    healthEntry0.availability_percent = 100 ∧
    healthEntry0.health_score = 40 ∧ healthEntry0.health_score ≠ 100 ∧
    healthEntry0.status = HealthStatus.Poor ∧
    healthEntry0.status ≠ HealthStatus.Excellent := by
  refine ⟨by rfl, ?_, by rfl, by rfl, by norm_num [healthEntry0], by rfl, by simp [healthEntry0]⟩
  rw [calculate_sensor_health_zeros]
  simp

/-! ## Lemmas about trend analysis -/

theorem linregressEntry_classification (pairs : List (ℝ × ℝ)) :
    ((linregressEntry pairs).direction = Direction.Stable ↔
      |(linregressEntry pairs).slope| < (linregressEntry pairs).std_error) ∧
    (¬ |(linregressEntry pairs).slope| < (linregressEntry pairs).std_error →
      0 < (linregressEntry pairs).slope →
      (linregressEntry pairs).direction = Direction.Increasing) ∧
    (¬ |(linregressEntry pairs).slope| < (linregressEntry pairs).std_error →
      (linregressEntry pairs).slope < 0 →
      (linregressEntry pairs).direction = Direction.Decreasing) ∧
    ((linregressEntry pairs).confidence = Confidence.High ↔
      7/10 < (linregressEntry pairs).r_squared) ∧
    ((linregressEntry pairs).confidence = Confidence.Medium ↔
      3/10 < (linregressEntry pairs).r_squared ∧
        (linregressEntry pairs).r_squared ≤ 7/10) := by
  unfold linregressEntry
  dsimp only
  refine ⟨?_, ?_, ?_, ?_, ?_⟩
  · split_ifs with h1 h2
    · exact iff_of_true rfl h1
    · exact iff_of_false (by simp) h1
    · exact iff_of_false (by simp) h1
  · intro h1 h2
    rw [if_neg h1, if_pos h2]
  · intro h1 h2
    rw [if_neg h1, if_neg (asymm h2)]
  · split_ifs with h1 h2
    · exact iff_of_true rfl h1
    · exact iff_of_false (by simp) h1
    · exact iff_of_false (by simp) h1
  · split_ifs with h1 h2
    · exact iff_of_false (by simp) (fun hc => absurd hc.2 (not_le.mpr h1))
    · exact iff_of_true rfl ⟨h2, le_of_not_lt h1⟩
    · exact iff_of_false (by simp) (fun hc => h2 hc.1)

theorem analyze_trends_mem {data : List Row} {s : Sensor} {e : TrendEntry}
    (h : (s, e) ∈ analyze_trends data) :
    ∃ pairs : List (ℝ × ℝ), e = linregressEntry pairs := by
  unfold analyze_trends at h
  split at h
  · exact absurd h (List.not_mem_nil _)
  · rw [List.mem_filterMap] at h
    obtain ⟨s', _, hf⟩ := h
    dsimp only at hf
    split at hf
    · exact absurd hf (by simp)
    · injection hf with hf'
      exact ⟨_, (congrArg Prod.snd hf').symm⟩

theorem trendSnap_sorted : List.Sorted rowLe trendSnap := by
  unfold trendSnap tRow
  rw [List.sorted_cons, List.sorted_cons]
  refine ⟨?_, ?_, List.sorted_singleton _⟩
  · intro b hb
    rcases List.mem_cons.mp hb with rfl | hb
    · unfold rowLe; norm_num
    · rcases List.mem_singleton.mp hb with rfl
      unfold rowLe; norm_num
  · intro b hb
    rcases List.mem_singleton.mp hb with rfl
    unfold rowLe; norm_num

theorem linregress_example :
    linregressEntry [((0 : ℝ), 5), (1, 7), (2, 9)] = trendSnapEntry := by
  unfold linregressEntry trendSnapEntry
  dsimp only
  norm_num [meanR]
  rw [show Real.sqrt 16 = 4 from by
    rw [show (16 : ℝ) = 4 ^ 2 by norm_num]
    exact Real.sqrt_sq (by norm_num)]
  norm_num [Real.sqrt_zero]

theorem analyze_trends_trendSnap :
    analyze_trends trendSnap = [(Sensor.temperature, trendSnapEntry)] := by
  unfold analyze_trends
  rw [if_neg (by simp [trendSnap])]
  rw [show sortSnap trendSnap = trendSnap from trendSnap_sorted.insertionSort_eq]
  have hpair : (trendSnap.filterMap (fun r => (getCol Sensor.temperature r).map
      (fun (v : ℚ) => (((r.timestamp : ℝ)) / 10 ^ 9, (v : ℝ))))) =
      [((0 : ℝ), 5), (1, 7), (2, 9)] := by
    norm_num [trendSnap, tRow, getCol, List.filterMap_cons]
  simp only [sensorList, List.filterMap_cons, List.filterMap_nil]
  rw [hpair]
  have hnone : ∀ s : Sensor, s ≠ Sensor.temperature →
      (trendSnap.filterMap (fun r => (getCol s r).map
        (fun (v : ℚ) => (((r.timestamp : ℝ)) / 10 ^ 9, (v : ℝ))))) = [] := by
    intro s hs
    cases s with
    | temperature => exact absurd rfl hs
    | weight => norm_num [trendSnap, tRow, getCol, List.filterMap_cons]
    | moisture => norm_num [trendSnap, tRow, getCol, List.filterMap_cons]
    | pressure => norm_num [trendSnap, tRow, getCol, List.filterMap_cons]
  rw [hnone Sensor.weight (by simp), hnone Sensor.moisture (by simp),
    hnone Sensor.pressure (by simp)]
  rw [if_neg (by norm_num), if_pos (by norm_num), if_pos (by norm_num),
    if_pos (by norm_num)]
  rw [linregress_example]

/-! ## Claim C6 -/

/-- C6: every trend entry classifies direction as Stable exactly when
`|slope| < std_error`, otherwise Increasing for positive slope and
Decreasing for negative slope, and classifies confidence High exactly when
`r² > 0.7` and Medium exactly when `0.3 < r² ≤ 0.7`; on the perfectly
linear series `value = 2·t + 5` (`trendSnap`) it reports slope exactly 2,
direction Increasing, confidence High. -/
theorem trend_classification :
    (∀ (data : List Row) (s : Sensor) (e : TrendEntry),
      (s, e) ∈ analyze_trends data →
      ((e.direction = Direction.Stable ↔ |e.slope| < e.std_error) ∧
       (¬ |e.slope| < e.std_error → 0 < e.slope →
         e.direction = Direction.Increasing) ∧
       (¬ |e.slope| < e.std_error → e.slope < 0 →
         e.direction = Direction.Decreasing) ∧
       (e.confidence = Confidence.High ↔ 7/10 < e.r_squared) ∧
       (e.confidence = Confidence.Medium ↔
         3/10 < e.r_squared ∧ e.r_squared ≤ 7/10))) ∧
    (analyze_trends trendSnap = [(Sensor.temperature, trendSnapEntry)] ∧
      trendSnapEntry.slope = 2 ∧ trendSnapEntry.direction = Direction.Increasing ∧
      trendSnapEntry.confidence = Confidence.High) := by
  constructor
  · intro data s e h
    obtain ⟨pairs, rfl⟩ := analyze_trends_mem h
    exact linregressEntry_classification pairs
  · exact ⟨analyze_trends_trendSnap, rfl, rfl, rfl⟩

/-- C6 (witness): the classification rules instantiated at the concrete
entry `analyze_trends` computes for `trendSnap`. -/
theorem trend_classification_witness :
    trendSnapEntry.direction = Direction.Stable ↔
      |trendSnapEntry.slope| < trendSnapEntry.std_error :=
  (trend_classification.1 trendSnap Sensor.temperature trendSnapEntry
    (by rw [analyze_trends_trendSnap]; exact List.mem_singleton.mpr rfl)).1

end IoT
